import Mathlib

/-!
Verification development for the ML-Lab-of-Stocks backend.

This file shallow-embeds the core data transformations of the repository:

* `python_backend/services/backtesting.py` (`BacktestingService`):
  per-model synthetic backtests, accuracy metrics (MAE / RMSE / MAPE /
  Sharpe-style ratio), rolling accuracy windows, and aggregate statistics;
* `python_backend/services/models.py` (`ModelService.train_models`):
  the per-model failure isolation of the training batch loop;
* `StockPredict/python_backend/services/feature_engineering.py`
  (`FeatureEngineeringService`): feature generation, mock feature
  importance, and the Pearson correlation matrix.

Conventions of the embedding:

* Python floats are modelled by exact arithmetic: generic
  `LinearOrderedField` values where the code needs only field operations
  (instantiated at `ℚ` for executable checks), and `ℝ` where the code
  takes square roots or logarithms.
* A numpy `NaN` inside a column is an `Option.none`; a numpy computation
  that would produce `NaN` (mean of an empty selection, zero-variance
  correlation) is modelled by `Option` or by the explicit substitution the
  code performs afterwards.
* `np.random` draws are modelled by an explicit stream `g : ℕ → ℝ`
  (or `ℚ`) of the successive values produced by the generator after its
  last seeding; `np.random.seed(42)` therefore means every consumer
  receives the same stream.
* `datetime.now()` is an explicit parameter; ISO date strings, whose
  lexicographic order is chronological, are modelled order-isomorphically
  by integers (days).
* Python dicts are association lists in insertion order.
-/

namespace StockLab

/-- Arithmetic mean of a list, `np.mean`: sum divided by length (Lean's
division-by-zero convention gives `mean [] = 0`; callers that can reach the
empty case are modelled with `Option` instead). -/
def mean {α : Type} [DivisionRing α] (l : List α) : α :=
  l.sum / (l.length : α)

/-- Left fold of `min` over a nonempty list, Python's builtin `min`. -/
def minList {α : Type} [LinearOrder α] (x : α) (l : List α) : α :=
  l.foldl min x

/-- Left fold of `max` over a nonempty list, Python's builtin `max`. -/
def maxList {α : Type} [LinearOrder α] (x : α) (l : List α) : α :=
  l.foldl max x

/-!  ## Metric computations of `BacktestingService._backtest_model`  -/

/-- The MAPE sample of an aligned (actual, predicted) pair list, from
`backtesting.py` line 113: the terms `abs((a - p) / a)` for exactly those
pairs with `a != 0`. -/
def mapeTerms {α : Type} [LinearOrderedField α] (pairs : List (α × α)) : List α :=
  (pairs.filter (fun p => decide (p.1 ≠ 0))).map (fun p => |(p.1 - p.2) / p.1|)

/-- Mean absolute percentage error of aligned pairs as a fraction (not yet
multiplied by 100), from `backtesting.py` lines 113 and 152:
`np.mean([abs((a - p) / a) for a, p in zip(actual, predicted) if a != 0])`.
`none` models the `NaN` that `np.mean` returns when every actual is zero. -/
def mapeMean {α : Type} [LinearOrderedField α] (pairs : List (α × α)) : Option α :=
  let terms := mapeTerms pairs
  if terms.isEmpty then none else some (mean terms)

/-- Period-over-period returns of a price series, from `backtesting.py`
line 118: `[(p / a - 1) for a, p in zip(actual[:-1], actual[1:])]`. -/
noncomputable def periodReturns (prices : List ℝ) : List ℝ :=
  (prices.dropLast.zip prices.tail).map (fun q => q.2 / q.1 - 1)

/-- Population standard deviation, `np.std` with its default `ddof=0`. -/
noncomputable def stdPop (l : List ℝ) : ℝ :=
  Real.sqrt (mean (l.map (fun x => (x - mean l) ^ 2)))

/-- The Sharpe-style ratio of `backtesting.py` lines 116-123: annualized
mean-over-std of the period returns of the actual prices, with the guard
`len(returns) > 1 and np.std(returns) > 0` and fallback `0`. -/
noncomputable def sharpeOf (prices : List ℝ) : ℝ :=
  let rets := periodReturns prices
  if 1 < rets.length ∧ 0 < stdPop rets then
    mean rets / stdPop rets * Real.sqrt 252
  else 0

/-!  ## Rolling accuracy (`BacktestingService._calculate_rolling_accuracy`)  -/

/-- Rounding to one decimal place, Python's `round(x, 1)` idealized to exact
arithmetic (ties, which in the floating-point source depend on the binary
representation, round here by `round`). -/
def round1 {α : Type} [LinearOrderedField α] [FloorRing α] (x : α) : α :=
  ((round (10 * x) : ℤ) : α) / 10

/-- One entry of the rolling accuracy trend: the `"Week k"` label, the
recorded accuracy, and the end date as days before `datetime.now()`
(`len(actual) - i` in the source). -/
structure AccEntry (α : Type) where
  period : String
  accuracy : α
  endOffset : ℕ
  deriving DecidableEq, Repr

/-- Accuracy of one window, `backtesting.py` lines 152-153:
`max(0, 1 - mape) * 100`.  When the windowed MAPE is `NaN` (every actual
zero) Python's `max(0, nan)` keeps `0`, so the entry is `0`. -/
def windowAccuracy {α : Type} [LinearOrderedField α] (wa wp : List α) : α :=
  match mapeMean (wa.zip wp) with
  | none => 0
  | some m => max 0 (1 - m) * 100

/-- The rolling accuracy trend of `backtesting.py` lines 141-161.  The
source iterates `i in range(window, len(actual), window)` with `window = 7`
over windows `actual[i-window:i]`; here `i = 7 * (k + 1)` for
`k < (len - 1) / 7`, which enumerates exactly that range. -/
def rollingAccuracy {α : Type} [LinearOrderedField α] [FloorRing α]
    (actual predicted : List α) : List (AccEntry α) :=
  (List.range ((actual.length - 1) / 7)).map (fun k =>
    let i := 7 * (k + 1)
    { period := "Week " ++ toString (k + 1)
      accuracy := round1 (windowAccuracy
        ((actual.drop (i - 7)).take 7) ((predicted.drop (i - 7)).take 7))
      endOffset := actual.length - i })

/-!  ## Correlation matrix (`FeatureEngineeringService._calculate_correlation_matrix`)

The source collects the non-empty feature value columns into a pandas
DataFrame, computes `feature_df.corr()` (Pearson, over the pairwise
complete observations of each column pair), replaces `NaN` by `0` with
`fillna(0)`, and returns the matrix as a list of rows.  A column entry
that is `NaN` (e.g. the head of a rolling indicator) is `none` here. -/

/-- Pairwise complete observations of two columns: the positions where both
columns are non-`NaN`, as pandas' Pearson correlation selects them. -/
def pairedObs (xs ys : List (Option ℝ)) : List (ℝ × ℝ) :=
  (xs.zip ys).filterMap (fun q =>
    match q with
    | (some a, some b) => some (a, b)
    | _ => none)

/-- Sum of squared deviations from the mean (the variance numerator). -/
noncomputable def devSq (l : List ℝ) : ℝ :=
  (l.map (fun x => (x - mean l) ^ 2)).sum

/-- Sum of products of deviations of the two coordinates (the covariance
numerator) over a list of observation pairs. -/
noncomputable def covSum (ps : List (ℝ × ℝ)) : ℝ :=
  (ps.map (fun p =>
    (p.1 - mean (ps.map Prod.fst)) * (p.2 - mean (ps.map Prod.snd)))).sum

/-- Pearson correlation of two columns over their pairwise complete
observations, with the `NaN -> 0` substitution that `fillna(0)` applies to
undefined correlations (zero variance or no observations). -/
noncomputable def pearson (xs ys : List (Option ℝ)) : ℝ :=
  let ps := pairedObs xs ys
  let d := devSq (ps.map Prod.fst) * devSq (ps.map Prod.snd)
  if d = 0 then 0 else covSum ps / Real.sqrt d

/-- The correlation matrix of `feature_engineering.py` lines 216-240: drop
empty value columns, then the square matrix of Pearson correlations with
`NaN` replaced by `0`, in column iteration order. -/
noncomputable def calculateCorrelationMatrix (cols : List (List (Option ℝ))) :
    List (List ℝ) :=
  let ne := cols.filter (fun c => !c.isEmpty)
  ne.map (fun ci => ne.map (fun cj => pearson ci cj))

/-- Entry access `matrix[i][j]` with pandas-free out-of-range default 0. -/
def matrixEntry (m : List (List ℝ)) (i j : ℕ) : ℝ :=
  (m.getD i []).getD j 0

/-!  ## Feature generation (`FeatureEngineeringService`)  -/

/-- One OHLCV record of the input `stock_data["data"]`; the date is modelled
by an integer whose order is the chronological order of the date strings. -/
structure Row where
  date : ℕ
  openP : ℝ
  high : ℝ
  low : ℝ
  close : ℝ
  volume : ℝ

/-- The DataFrame after `df.set_index("date"); df.sort_index()`: the rows
sorted (stably) by date. -/
def sortRows (rows : List Row) : List Row :=
  rows.insertionSort (fun a b => a.date ≤ b.date)

/-- Rolling-window column: position `i` holds `f` of the last `w` values up
to and including `i`, and `NaN` (`none`) while fewer than `w` values of
history exist. -/
def rollWin (w : ℕ) (f : List ℝ → ℝ) (xs : List ℝ) : List (Option ℝ) :=
  (List.range xs.length).map (fun i =>
    if w ≤ i + 1 then some (f ((xs.drop (i + 1 - w)).take w)) else none)

/-- Sample standard deviation (`ddof = 1`), pandas' rolling `std`. -/
noncomputable def stdSample (l : List ℝ) : ℝ :=
  Real.sqrt ((l.map (fun x => (x - mean l) ^ 2)).sum / ((l.length : ℝ) - 1))

/-- Exponentially weighted sequence with smoothing `a`, seeded at the first
value: `e 0 = x 0`, `e i = a * x i + (1 - a) * e (i-1)`. -/
noncomputable def emaScanFrom (a : ℝ) (prev : ℝ) : List ℝ → List ℝ
  | [] => []
  | x :: rest =>
    let e := a * x + (1 - a) * prev
    e :: emaScanFrom a e rest

/-- Modelled from the spec: the `ta` library's exponential moving average
(`ta.trend.ema_indicator`, external to this repository).  Standard EMA with
smoothing `2 / (w + 1)`, reported from index `w - 1` on (`NaN` before). -/
noncomputable def emaCol (w : ℕ) (xs : List ℝ) : List (Option ℝ) :=
  let es : List ℝ :=
    match xs with
    | [] => []
    | x :: rest => x :: emaScanFrom (2 / ((w : ℝ) + 1)) x rest
  (List.range xs.length).map (fun i =>
    if w ≤ i + 1 then some (es.getD i 0) else none)

/-- Pointwise combination of two aligned columns, `NaN` when either side is. -/
def combine2 (f : ℝ → ℝ → ℝ) (c1 c2 : List (Option ℝ)) : List (Option ℝ) :=
  (c1.zip c2).map (fun q =>
    match q with
    | (some a, some b) => some (f a b)
    | _ => none)

/-- Per-period gains of a series (`max (diff) 0`), for the RSI. -/
def gainsOf (xs : List ℝ) : List ℝ :=
  (xs.zip xs.tail).map (fun q => max (q.2 - q.1) 0)

/-- Per-period losses of a series (`max (-diff) 0`), for the RSI. -/
def lossesOf (xs : List ℝ) : List ℝ :=
  (xs.zip xs.tail).map (fun q => max (q.1 - q.2) 0)

/-- Modelled from the spec: `ta.momentum.rsi` (external), specified as
14-period average gain / average loss with `100 - 100 / (1 + RS)`; an
all-loss-free window reports 100. -/
noncomputable def rsiCol (xs : List ℝ) : List (Option ℝ) :=
  (List.range xs.length).map (fun i =>
    if 14 ≤ i then
      let g := mean (((gainsOf xs).drop (i - 14)).take 14)
      let l := mean (((lossesOf xs).drop (i - 14)).take 14)
      some (if l = 0 then 100 else 100 - 100 / (1 + g / l))
    else none)

/-- Modelled from the spec: `ta.trend.macd` (external), specified as
`EMA(12) - EMA(26)`. -/
noncomputable def macdCol (xs : List ℝ) : List (Option ℝ) :=
  combine2 (fun a b => a - b) (emaCol 12 xs) (emaCol 26 xs)

/-- EMA over the defined suffix of a column, keeping the `NaN` prefix: used
for the MACD signal line over the MACD column. -/
noncomputable def emaOptCol (w : ℕ) (col : List (Option ℝ)) : List (Option ℝ) :=
  let vals := col.filterMap id
  let pre := col.length - vals.length
  let es : List ℝ :=
    match vals with
    | [] => []
    | x :: rest => x :: emaScanFrom (2 / ((w : ℝ) + 1)) x rest
  (List.range col.length).map (fun i =>
    if pre + w ≤ i + 1 then some (es.getD (i - pre) 0) else none)

/-- Modelled from the spec: `ta.trend.macd_signal` (external), the EMA(9)
of the MACD line. -/
noncomputable def macdSignalCol (xs : List ℝ) : List (Option ℝ) :=
  emaOptCol 9 (macdCol xs)

/-- Percentage change column, pandas `Series.pct_change()`: `NaN` at the
first position, then `x i / x (i-1) - 1`. -/
noncomputable def pctChangeCol (xs : List ℝ) : List (Option ℝ) :=
  match xs with
  | [] => []
  | _ :: _ => none :: ((xs.zip xs.tail).map (fun q => some (q.2 / q.1 - 1)))

/-- Log return column: `NaN` at the first position, then `log (x i / x (i-1))`. -/
noncomputable def logReturnCol (xs : List ℝ) : List (Option ℝ) :=
  match xs with
  | [] => []
  | _ :: _ => none :: ((xs.zip xs.tail).map (fun q => some (Real.log (q.2 / q.1))))

/-- Modelled from the spec: 20-day rolling volatility of the percentage
changes (`df["close"].pct_change().rolling(window=20).std()`), defined once
a full window of defined changes exists. -/
noncomputable def volatilityCol (xs : List ℝ) : List (Option ℝ) :=
  let pc := pctChangeCol xs
  (List.range xs.length).map (fun i =>
    let w := (pc.drop (i + 1 - 20)).take 20
    if 20 ≤ i + 1 ∧ w.all Option.isSome then some (stdSample (w.filterMap id))
    else none)

/-- True ranges of the rows, for the ATR: `high - low` at the start, then
`max (high - low) (max |high - prev close| |low - prev close|)`. -/
def trueRanges (df : List Row) : List ℝ :=
  match df with
  | [] => []
  | r0 :: _ =>
    (r0.high - r0.low) ::
      ((df.zip df.tail).map (fun q =>
        max (q.2.high - q.2.low)
          (max |q.2.high - q.1.close| |q.2.low - q.1.close|)))

/-- Modelled from the spec: `ta.volatility.average_true_range` (external),
as the 14-period rolling mean of the true ranges. -/
noncomputable def atrCol (df : List Row) : List (Option ℝ) :=
  rollWin 14 mean (trueRanges df)

/-- Modelled from the spec: `ta.momentum.stoch` (external), the 14-period
stochastic oscillator `%K = 100 * (close - low14) / (high14 - low14)`. -/
noncomputable def stochCol (df : List Row) : List (Option ℝ) :=
  (List.range df.length).map (fun i =>
    if 14 ≤ i + 1 then
      let hs := ((df.map Row.high).drop (i + 1 - 14)).take 14
      let ls := ((df.map Row.low).drop (i + 1 - 14)).take 14
      let c := (df.map Row.close).getD i 0
      let hh := maxList 0 hs
      let ll := minList hh ls
      some (100 * (c - ll) / (hh - ll))
    else none)

/-- Modelled from the spec: `ta.momentum.williams_r` (external), the
14-period Williams %R `= -100 * (high14 - close) / (high14 - low14)`. -/
noncomputable def williamsRCol (df : List Row) : List (Option ℝ) :=
  (List.range df.length).map (fun i =>
    if 14 ≤ i + 1 then
      let hs := ((df.map Row.high).drop (i + 1 - 14)).take 14
      let ls := ((df.map Row.low).drop (i + 1 - 14)).take 14
      let c := (df.map Row.close).getD i 0
      let hh := maxList 0 hs
      let ll := minList hh ls
      some (-100 * (hh - c) / (hh - ll))
    else none)

/-- Modelled from the spec: `ta.volume.volume_sma` (external), a simple
moving average of the volume (20-period). -/
noncomputable def volumeSmaCol (df : List Row) : List (Option ℝ) :=
  rollWin 20 mean (df.map Row.volume)

/-- Constant mock column (`pd.Series([c] * len(df))`), used for the
placeholder fundamental/macro features. -/
def constCol (c : ℝ) (n : ℕ) : List (Option ℝ) :=
  List.replicate n (some c)

/-- `FeatureEngineeringService._generate_feature` (lines 67-151): the column
of one named feature over the sorted DataFrame, or `none` for an unknown
feature name (the source logs a warning and returns `None`). -/
noncomputable def featureColumn (df : List Row) (feature : String) :
    Option (List (Option ℝ)) :=
  if feature = "close" then some ((df.map Row.close).map some)
  else if feature = "volume" then some ((df.map Row.volume).map some)
  else if feature = "open" then some ((df.map Row.openP).map some)
  else if feature = "high" then some ((df.map Row.high).map some)
  else if feature = "low" then some ((df.map Row.low).map some)
  else if feature = "sma_20" then some (rollWin 20 mean (df.map Row.close))
  else if feature = "sma_50" then some (rollWin 50 mean (df.map Row.close))
  else if feature = "ema_12" then some (emaCol 12 (df.map Row.close))
  else if feature = "ema_26" then some (emaCol 26 (df.map Row.close))
  else if feature = "rsi" then some (rsiCol (df.map Row.close))
  else if feature = "macd" then some (macdCol (df.map Row.close))
  else if feature = "macd_signal" then some (macdSignalCol (df.map Row.close))
  else if feature = "macd_diff" then
    some (combine2 (fun a b => a - b) (macdCol (df.map Row.close))
      (macdSignalCol (df.map Row.close)))
  else if feature = "bollinger_upper" then
    some (rollWin 20 (fun l => mean l + 2 * stdSample l) (df.map Row.close))
  else if feature = "bollinger_lower" then
    some (rollWin 20 (fun l => mean l - 2 * stdSample l) (df.map Row.close))
  else if feature = "bollinger_middle" then
    some (rollWin 20 mean (df.map Row.close))
  else if feature = "atr" then some (atrCol df)
  else if feature = "stoch" then some (stochCol df)
  else if feature = "williams_r" then some (williamsRCol df)
  else if feature = "price_change" then some (pctChangeCol (df.map Row.close))
  else if feature = "log_return" then some (logReturnCol (df.map Row.close))
  else if feature = "volatility" then some (volatilityCol (df.map Row.close))
  else if feature = "volume_sma" then some (volumeSmaCol df)
  else if feature = "volume_change" then some (pctChangeCol (df.map Row.volume))
  else if feature = "pe_ratio" then some (constCol 20.5 df.length)
  else if feature = "market_cap" then some (constCol 1000000000 df.length)
  else if feature = "book_value" then some (constCol 15.2 df.length)
  else if feature = "gdp" then some (constCol 2.1 df.length)
  else if feature = "cpi" then some (constCol 3.2 df.length)
  else if feature = "interest_rates" then some (constCol 5.25 df.length)
  else none

/-- The feature names `_generate_feature` recognizes (everything that does
not fall through to the `Unknown feature` warning). -/
def knownFeatureNames : List String :=
  ["close", "volume", "open", "high", "low", "sma_20", "sma_50", "ema_12",
   "ema_26", "rsi", "macd", "macd_signal", "macd_diff", "bollinger_upper",
   "bollinger_lower", "bollinger_middle", "atr", "stoch", "williams_r",
   "price_change", "log_return", "volatility", "volume_sma", "volume_change",
   "pe_ratio", "market_cap", "book_value", "gdp", "cpi", "interest_rates"]

/-- Recognition predicate for feature names. -/
def knownFeature (feature : String) : Bool :=
  feature ∈ knownFeatureNames

/-- `FeatureEngineeringService._get_feature_description` modelled only as far
as the claims need it: the lookup table is behaviourally a function of the
feature name alone, with the `Feature: {name}` fallback. -/
def featureDescription (feature : String) : String :=
  if knownFeature feature then "Described feature " ++ feature
  else "Feature: " ++ feature

/-- The feature presets of `FeatureEngineeringService.__init__`. -/
def featurePresets : List (String × List String) :=
  [("basic", ["close", "volume", "sma_20"]),
   ("technical", ["close", "rsi", "macd", "bollinger_upper", "bollinger_lower",
     "ema_12", "ema_26"]),
   ("macro", ["close", "gdp", "cpi", "interest_rates"]),
   ("fundamental", ["pe_ratio", "market_cap", "close", "book_value"]),
   ("custom", [])]

/-!  ## Mock feature importance
(`FeatureEngineeringService._calculate_feature_importance`)  -/

/-- One entry of the feature importance list. -/
structure ImpEntry where
  feature : String
  importance : ℚ
  deriving DecidableEq, Repr

/-- The static importance lookup table (`importance_scores`). -/
def staticImportance : List (String × ℚ) :=
  [("close", 0.85), ("volume", 0.45), ("sma_20", 0.72), ("rsi", 0.38),
   ("macd", 0.56), ("bollinger_upper", 0.41), ("bollinger_lower", 0.39),
   ("ema_12", 0.68), ("ema_26", 0.65)]

/-- The unsorted importance entries: per feature key, the static score if
present, else the next `np.random.uniform(0.1, 0.9)` draw from the stream
`u` (the draw counter `k` advances only on fallback draws). -/
def mkImportance (u : ℕ → ℚ) : List String → ℕ → List ImpEntry
  | [], _ => []
  | f :: fs, k =>
    match (staticImportance.lookup f : Option ℚ) with
    | some s => ⟨f, s⟩ :: mkImportance u fs k
    | none => ⟨f, u k⟩ :: mkImportance u fs (k + 1)

/-- Descending-by-importance order used by `importance.sort(key=...,
reverse=True)`. -/
def impGE (a b : ImpEntry) : Prop := b.importance ≤ a.importance

instance : DecidableRel impGE := fun a b => by
  unfold impGE; infer_instance

instance : IsTotal ImpEntry impGE :=
  ⟨fun a b => le_total b.importance a.importance⟩

instance : IsTrans ImpEntry impGE :=
  ⟨fun _ _ _ h h' => le_trans h' h⟩

/-- `_calculate_feature_importance` (lines 189-214): one entry per feature
key, then a stable sort by importance, descending. -/
def calculateFeatureImportance (u : ℕ → ℚ) (keys : List String) :
    List ImpEntry :=
  (mkImportance u keys 0).insertionSort impGE

/-!  ## `FeatureEngineeringService.generate_features`  -/

/-- One generated feature of the response: name, aligned values, description
(the dictionary built at lines 42-46). -/
structure FeatInfo where
  name : String
  values : List (Option ℝ)
  descr : String

/-- The full `generate_features` response (line 54-61).  `generated_at`
models the `pd.Timestamp.now().isoformat()` wall-clock stamp. -/
structure FeatOut where
  features : List (String × FeatInfo)
  featureImportance : List ImpEntry
  correlationMatrix : List (List ℝ)
  selectedFeatures : List String
  ticker : String
  generatedAt : ℕ

instance : Inhabited FeatOut := ⟨⟨[], [], [], [], "", 0⟩⟩

/-- Insert-or-overwrite into an association list, keeping the insertion
position of an existing key: `features_data[feature] = {...}`. -/
def upsert (d : List (String × FeatInfo)) (k : String) (v : FeatInfo) :
    List (String × FeatInfo) :=
  match d with
  | [] => [(k, v)]
  | (k', v') :: rest =>
    if k' = k then (k, v) :: rest else (k', v') :: upsert rest k v

/-- The feature-generation loop of `generate_features` lines 39-46: features
whose column is `None` (unknown names) are skipped with a warning. -/
noncomputable def buildFeatures (df : List Row) :
    List String → List (String × FeatInfo) → List (String × FeatInfo)
  | [], acc => acc
  | f :: fs, acc =>
    match featureColumn df f with
    | some col => buildFeatures df fs (upsert acc f ⟨f, col, featureDescription f⟩)
    | none => buildFeatures df fs acc

/-- `FeatureEngineeringService.generate_features` (lines 19-65).  `u` is the
`np.random.uniform` stream consumed by the mock importance, `t` the wall
clock.  An empty `stock_data["data"]` raises (`ValueError`, re-raised by the
outer handler); unknown feature names never do. -/
noncomputable def generateFeatures (ticker preset : String)
    (selectedFeatures : List String) (rows : List Row) (u : ℕ → ℚ) (t : ℕ) :
    Except String FeatOut :=
  if rows.isEmpty then .error "Stock data is required for feature generation"
  else
    let df := sortRows rows
    let feats := if preset = "custom" then selectedFeatures
      else ((featurePresets.lookup preset).getD [])
    let fd := buildFeatures df feats []
    .ok { features := fd
          featureImportance := calculateFeatureImportance u (fd.map Prod.fst)
          correlationMatrix :=
            calculateCorrelationMatrix (fd.map (fun p => p.2.values))
          selectedFeatures := feats
          ticker := ticker
          generatedAt := t }

/-- The successful result of `generateFeatures` (its callers in the claims
always supply non-empty data, under which the call cannot fail). -/
noncomputable def generateFeaturesOut (ticker preset : String)
    (selectedFeatures : List String) (rows : List Row) (u : ℕ → ℚ) (t : ℕ) :
    FeatOut :=
  match generateFeatures ticker preset selectedFeatures rows u t with
  | .ok out => out
  | .error _ => default

/-!  ## `BacktestingService` batch machinery  -/

/-- `BacktestingService._parse_period` (lines 201-217). -/
def parsePeriod (s : String) : ℕ :=
  (([("1 Day", 1), ("7 Days", 7), ("30 Days", 30), ("1 Week", 7),
     ("2 Weeks", 14), ("1 Month", 30), ("2 Months", 60),
     ("Last 3 Months", 90), ("Last 6 Months", 180), ("Last 1 Year", 365),
     ("Last 2 Years", 730)] : List (String × ℕ)).lookup s).getD 30

/-- The synthetic actual-price random walk of `_backtest_model` lines 81-89:
`current *= 1 + normal(0.001, 0.02)`, one standard draw `g k` per step
(`normal(mu, sigma) = mu + sigma * z`). -/
noncomputable def priceWalk (g : ℕ → ℝ) : ℝ → ℕ → ℕ → List ℝ
  | _, _, 0 => []
  | price, k, n + 1 =>
    let next := price * (1 + (0.001 + 0.02 * g k))
    next :: priceWalk g next (k + 1) n

/-- One per-model backtest result (`_backtest_model` return value, lines
128-135).  `period_start`/`period_end` stand for the ISO date strings
(order-isomorphic integer days). -/
structure BTResult where
  modelName : String
  metrics : List (String × ℝ)
  rollingAcc : List (AccEntry ℝ)
  totalPredictions : ℕ
  periodStart : ℤ
  periodEnd : ℤ

/-- `BacktestingService._backtest_model` (lines 67-139): the synthetic
series, the requested metrics in source order, and the rolling accuracy.
`np.random.seed(42)` at line 80 resets the generator, so the draw stream
`g` here is the stream determined by seed 42 — identical on every call.
`now` models `datetime.now()` (integer days); the date range has
`period_days + 1` daily points.  A `NaN` MAPE (possible only when every
synthetic actual is zero) is modelled by the `mean [] = 0` convention. -/
noncomputable def backtestModel (g : ℕ → ℝ) (now : ℤ) (modelName : String)
    (periodDays : ℕ) (metricNames : List String) : BTResult :=
  let n := periodDays + 1
  let actual := priceWalk g 180 0 n
  let predicted := (List.range n).map (fun i =>
    let a := actual.getD i 0
    a + a * 0.03 * g (n + i))
  let pairs := actual.zip predicted
  let mets :=
    (if "mae" ∈ metricNames then
      [("mae", mean (pairs.map (fun q => |q.2 - q.1|)))] else []) ++
    (if "rmse" ∈ metricNames then
      [("rmse", Real.sqrt (mean (pairs.map (fun q => (q.1 - q.2) ^ 2))))] else []) ++
    (if "mape" ∈ metricNames then
      [("mape", ((mapeMean pairs).getD 0) * 100)] else []) ++
    (if "sharpe" ∈ metricNames then [("sharpe", sharpeOf actual)] else [])
  { modelName := modelName
    metrics := mets
    rollingAcc := rollingAccuracy actual predicted
    totalPredictions := n
    periodStart := now - periodDays
    periodEnd := now }

/-!  ## Aggregate statistics (`BacktestingService._calculate_overall_stats`) -/

/-- What `_calculate_overall_stats` reads from one per-model result: its
metric dict and its evaluation period bounds. -/
structure MetricRecord (α : Type) where
  metrics : List (String × α)
  periodStart : ℤ
  periodEnd : ℤ

/-- Append a value to a key's list in the `all_metrics` accumulator,
creating the key at the end on first sight (Python dict insertion order). -/
def addMetricValue {α : Type} (d : List (String × List α)) (k : String)
    (v : α) : List (String × List α) :=
  match d with
  | [] => [(k, [v])]
  | (k', vs) :: rest =>
    if k' = k then (k', vs ++ [v]) :: rest else (k', vs) :: addMetricValue rest k v

/-- The `all_metrics` collection loop (lines 168-173): every model's metric
values grouped by metric name, in first-seen order. -/
def allMetrics {α : Type} (results : List (String × MetricRecord α)) :
    List (String × List α) :=
  (results.flatMap (fun r => r.2.metrics)).foldl
    (fun d kv => addMetricValue d kv.1 kv.2) []

/-- The values collected for one metric name, in iteration order (models
outer, each model's metrics inner). -/
def collectedValues {α : Type} (results : List (String × MetricRecord α))
    (name : String) : List α :=
  ((results.flatMap (fun r => r.2.metrics)).filter
    (fun kv => kv.1 == name)).map Prod.snd

/-- The error-style metrics whose best value is the minimum (line 179). -/
def errorMetricNames : List String := ["mae", "rmse", "mape"]

/-- The `best_{metric}` value: `min(values)` for error metrics, else
`max(values)` (line 179; `values` is nonempty for every collected key). -/
def bestValue {α : Type} [LinearOrder α] [Zero α] (name : String)
    (values : List α) : α :=
  match values with
  | [] => 0
  | v :: vs =>
    if name ∈ errorMetricNames then minList v vs else maxList v vs

/-- The per-model sort key of `best_model` (line 184):
`metrics.get("mape", float("inf"))`, with `+inf` as `⊤`. -/
def mapeKey {α : Type} (results : List (String × MetricRecord α))
    (name : String) : WithTop α :=
  match results.lookup name with
  | none => ⊤
  | some r =>
    match r.metrics.lookup "mape" with
    | none => ⊤
    | some v => (v : WithTop α)

/-- Python's `min(iterable, key=f)`: fold keeping the current best,
replacing only on a strictly smaller key, so the first occurrence wins
ties. -/
def pickMinBy {β : Type} {γ : Type} [LinearOrder γ] (f : β → γ) :
    β → List β → β
  | b, [] => b
  | b, y :: ys => pickMinBy f (if f y < f b then y else b) ys

/-- The aggregate statistics record (`_calculate_overall_stats` return
value): summary metrics (`avg_*` / `best_*` keys), best model, model count
and the overall evaluation period. -/
structure OverallStats (α : Type) where
  summaryMetrics : List (String × α)
  bestModel : String
  totalModels : ℕ
  periodStart : ℤ
  periodEnd : ℤ

/-- `BacktestingService._calculate_overall_stats` (lines 163-199).  With an
empty result dict `min(...)` raises `ValueError`, the handler logs and
returns `{}` — modelled by `none`. -/
def calculateOverallStats {α : Type} [LinearOrderedField α]
    (results : List (String × MetricRecord α)) : Option (OverallStats α) :=
  match results with
  | [] => none
  | (m0, r0) :: rest =>
    some
      { summaryMetrics :=
          (allMetrics results).flatMap (fun kv =>
            [("avg_" ++ kv.1, mean kv.2), ("best_" ++ kv.1, bestValue kv.1 kv.2)])
        bestModel := pickMinBy (mapeKey results) m0 (rest.map Prod.fst)
        totalModels := results.length
        periodStart := minList r0.periodStart (rest.map (fun r => r.2.periodStart))
        periodEnd := maxList r0.periodEnd (rest.map (fun r => r.2.periodEnd)) }

/-!  ## `BacktestingService.run_backtest` (lines 13-65)

The per-model loop at lines 33-45 has no per-model exception handler: a
failure of `_backtest_model` propagates to the outer `except`, which logs
and re-raises, aborting the whole batch.  `runBacktestWith` keeps the
evaluation of one model abstract (`_backtest_model` can raise, e.g. from
its numpy internals) to express exactly that control flow; `runBacktest`
instantiates it with the synthetic evaluator, which is total. -/

/-- The response payload of `run_backtest` (lines 50-61). -/
structure RunOutput where
  analysisId : String
  results : List (String × BTResult)
  overallStats : Option (OverallStats ℝ)
  period : String
  rollingWindow : String
  forecastHorizon : String
  metricNames : List String
  completedAt : ℤ

/-- The sequential per-model loop: the first failure aborts with that
model's error, no partial results survive. -/
def evalModels (ev : String → Except String BTResult) :
    List String → Except String (List (String × BTResult))
  | [] => .ok []
  | m :: ms =>
    match ev m with
    | .error e => .error e
    | .ok r => (evalModels ev ms).map (fun rs => (m, r) :: rs)

/-- `run_backtest` with the per-model evaluation abstracted: unknown
analysis ids raise `ValueError`; one model's failure aborts the batch. -/
noncomputable def runBacktestWith (ev : String → Except String BTResult)
    (analysisId : String) (analysisResults : List (String × List String))
    (period rollingWindow forecastHorizon : String)
    (metricNames : List String) (now : ℤ) : Except String RunOutput :=
  match analysisResults.lookup analysisId with
  | none => .error ("Analysis " ++ analysisId ++ " not found")
  | some models =>
    (evalModels ev models).map (fun rs =>
      { analysisId := analysisId
        results := rs
        overallStats := calculateOverallStats
          (rs.map (fun r => (r.1, ⟨r.2.metrics, r.2.periodStart, r.2.periodEnd⟩)))
        period := period
        rollingWindow := rollingWindow
        forecastHorizon := forecastHorizon
        metricNames := metricNames
        completedAt := now })

/-- `run_backtest` with the synthetic `_backtest_model` of this source tree,
which raises no exception: each model is evaluated with the same
seed-42 stream `g`. -/
noncomputable def runBacktest (g : ℕ → ℝ) (analysisId : String)
    (analysisResults : List (String × List String))
    (period rollingWindow forecastHorizon : String)
    (metricNames : List String) (now : ℤ) : Except String RunOutput :=
  runBacktestWith
    (fun m => .ok (backtestModel g now m (parsePeriod period) metricNames))
    analysisId analysisResults period rollingWindow forecastHorizon
    metricNames now

/-!  ## `ModelService.train_models` (models.py lines 33-91)

Unlike `run_backtest`, the training loop wraps each model in its own
`try/except`: a failed model is recorded in `training_jobs` with status
`"failed"` and the error string, its result is not stored, and the loop
continues with the remaining models. -/

/-- Final per-model status in `training_jobs[analysis_id]["models"]`. -/
inductive JobStatus where
  | completed : JobStatus
  | failed : String → JobStatus
  deriving DecidableEq, Repr

/-- The training loop over `request.selected_models`: `outcome m` is what
`_train_single_model` returns or raises for model `m`.  Returns the final
job statuses and the stored `analysis_results` models, in request order. -/
def trainModels {ρ : Type} (outcome : String → Except String ρ) :
    List String → List (String × JobStatus) × List (String × ρ)
  | [] => ([], [])
  | m :: ms =>
    let rest := trainModels outcome ms
    match outcome m with
    | .ok r => ((m, .completed) :: rest.1, (m, r) :: rest.2)
    | .error e => ((m, .failed e) :: rest.1, rest.2)

/-!  ## Auxiliary definitions used by individual claims  -/

/-- The MAPE as the code reports it in percent (line 114): the fraction of
`mapeMean` times 100, `NaN` (`none`) when no pair has a nonzero actual. -/
def mapePercent {α : Type} [LinearOrderedField α] (pairs : List (α × α)) :
    Option α :=
  (mapeMean pairs).map (fun m => m * 100)

/-- The MAPE as claim C5 words it: the mean of `|actual - predicted| /
actual` (absolute value over the numerator only) over the pairs with
nonzero actual, times 100.  This is the claim's formula, to be compared
with `mapePercent` from the source. -/
def mapeClaimC5 {α : Type} [LinearOrderedField α] (pairs : List (α × α)) :
    Option α :=
  let terms := (pairs.filter (fun p => decide (p.1 ≠ 0))).map
    (fun p => |p.1 - p.2| / p.1)
  if terms.isEmpty then none else some (mean terms * 100)

/-- A `run_backtest` per-model evaluator whose first model raises, for the
abort behaviour of the batch loop (claim C1). -/
def c1FailEval : String → Except String BTResult := fun m =>
  if m = "m1" then .error "boom"
  else .ok ⟨m, [], [], 0, 0, 0⟩

/-- The wall-clock stamp of a `generate_features` response (0 on failure),
used to separate two calls of the service. -/
def stampOf (e : Except String FeatOut) : ℕ :=
  match e with
  | .ok r => r.generatedAt
  | .error _ => 0

/-- The correlation-matrix shape and value properties of claim C2 as
amended: with `cols` the generated value columns in response order, the
matrix is square of their number, symmetric, all entries lie in `[-1, 1]`,
and a diagonal entry is `1` exactly when the column's paired observations
have nonzero variance — and `0` (the `NaN -> 0` substitution) otherwise. -/
def CorrMatrixClaim (out : FeatOut) : Prop :=
  let cols := out.features.map (fun p => p.2.values)
  let M := out.correlationMatrix
  M.length = cols.length ∧
  (∀ row ∈ M, row.length = cols.length) ∧
  (∀ i j, matrixEntry M i j = matrixEntry M j i) ∧
  (∀ i j, |matrixEntry M i j| ≤ 1) ∧
  (∀ i, matrixEntry M i i =
    if devSq ((pairedObs (cols.getD i []) (cols.getD i [])).map Prod.fst) = 0
    then 0 else 1)

/-- Two-row OHLCV fixture (dates in order, constant prices). -/
def rowsPair : List Row :=
  [⟨0, 1, 1, 1, 1, 1⟩, ⟨1, 1, 1, 1, 1, 1⟩]

/-- One-row OHLCV fixture. -/
def rowsOne : List Row :=
  [⟨0, 1, 1, 1, 1, 1⟩]

end StockLab

namespace StockLab

/-!  # Lemmas and claim theorems  -/

/-- A list of at most one return has zero (population) standard deviation. -/
theorem stdPop_short (l : List ℝ) (h : l.length ≤ 1) : stdPop l = 0 := by
  match l, h with
  | [], _ => simp [stdPop, mean]
  | [x], _ => simp [stdPop, mean]

/-- The population standard deviation is a square root, hence nonnegative. -/
theorem stdPop_nonneg (l : List ℝ) : 0 ≤ stdPop l :=
  Real.sqrt_nonneg _

/-- Claim C6: for every actual price sequence (with the defined
period-over-period returns, i.e. no zero divisor among the leading prices),
the Sharpe-style ratio equals `mean(returns) / std(returns) * sqrt 252` and
is `0` exactly when the standard deviation of the returns is `0`; the
division is never performed with a zero divisor. -/
theorem c6_sharpe (prices : List ℝ)
    (h : ∀ x ∈ prices.dropLast, x ≠ 0) :
    sharpeOf prices =
      if stdPop (periodReturns prices) = 0 then 0
      else mean (periodReturns prices) / stdPop (periodReturns prices) *
        Real.sqrt 252 := by
  unfold sharpeOf
  by_cases hlen : 1 < (periodReturns prices).length
  · by_cases hstd : stdPop (periodReturns prices) = 0
    · simp [hlen, hstd]
    · have hpos : 0 < stdPop (periodReturns prices) :=
        lt_of_le_of_ne (stdPop_nonneg _) (Ne.symm hstd)
      simp [hlen, hstd, hpos]
  · have hz : stdPop (periodReturns prices) = 0 := stdPop_short _ (by omega)
    simp [hlen, hz]

/-- Witness for C6 at the concrete price series `[1, 2]`. -/
theorem c6_sharpe_witness :
    (∀ x ∈ ([1, 2] : List ℝ).dropLast, x ≠ 0) ∧
    sharpeOf [1, 2] =
      (if stdPop (periodReturns [1, 2]) = 0 then 0
       else mean (periodReturns [1, 2]) / stdPop (periodReturns [1, 2]) *
         Real.sqrt 252) := by
  have h : ∀ x ∈ ([1, 2] : List ℝ).dropLast, x ≠ 0 := by
    intro x hx
    simp [List.dropLast] at hx
    simp [hx]
  exact ⟨h, c6_sharpe [1, 2] h⟩

/-- Claim C5, counterexample: at the pair list `[(-1, 0)]` the code's MAPE
(`abs((a - p) / a)`, line 113) is `100`, while the claim's formula
`|a - p| / a` gives `-100`: the two disagree on negative actuals. -/
theorem c5_counterexample :
    mapePercent [((-1 : ℚ), 0)] = some 100 ∧
    mapeClaimC5 [((-1 : ℚ), 0)] = some (-100) ∧
    some (100 : ℚ) ≠ some (-100 : ℚ) := by
  refine ⟨?_, ?_, by norm_num⟩ <;>
    norm_num [mapePercent, mapeMean, mapeTerms, mapeClaimC5, mean]

/-- Claim C5 as amended: the computed MAPE is defined exactly when some
pair has a nonzero actual (pairs with actual `0` are excluded rather than
dividing by zero), and its value is the mean of `|(actual - predicted) /
actual|` — absolute value of the whole ratio — over those pairs, times
100. -/
theorem c5_mape {α : Type} [LinearOrderedField α]
    (pairs : List (α × α)) (q : α) :
    mapePercent pairs = some q ↔
      ((∃ p ∈ pairs, p.1 ≠ 0) ∧ q = mean (mapeTerms pairs) * 100) := by
  unfold mapePercent mapeMean
  by_cases he : (mapeTerms pairs).isEmpty
  · have hno : ¬ ∃ p ∈ pairs, p.1 ≠ 0 := by
      rw [List.isEmpty_iff] at he
      unfold mapeTerms at he
      rw [List.map_eq_nil, List.filter_eq_nil] at he
      push_neg
      intro p hp
      have := he p hp
      simpa using this
    simp [he, hno]
  · have hyes : ∃ p ∈ pairs, p.1 ≠ 0 := by
      rw [List.isEmpty_iff] at he
      unfold mapeTerms at he
      rw [List.map_eq_nil] at he
      rcases List.exists_mem_of_ne_nil _ he with ⟨p, hp⟩
      have hp' := List.mem_filter.mp hp
      exact ⟨p, hp'.1, by simpa using hp'.2⟩
    simp only [he, if_false, Bool.false_eq_true, Option.map_some]
    constructor
    · rintro h
      cases h
      exact ⟨hyes, rfl⟩
    · rintro ⟨-, rfl⟩
      rfl

/-- Witness for C5 at the pair list `[(2, 1)]`. -/
theorem c5_mape_witness : mapePercent [((2 : ℚ), 1)] = some 50 :=
  (c5_mape [((2 : ℚ), 1)] 50).mpr
    ⟨⟨(2, 1), by norm_num, by norm_num⟩, by
      have h12 : |(1 / 2 : ℚ)| = 1 / 2 := abs_of_pos (by norm_num)
      norm_num [mapeTerms, mean, h12]⟩

/-- Claim C3, counterexample: on 8 aligned pairs whose first window has
windowed MAPE `1/700`, the recorded accuracy is `999/10` (the value
`max(0, 1 - mape) * 100 = 699/7` rounded to one decimal by `round(., 1)`),
not the claimed raw `max(0, 1 - mape) * 100`. -/
theorem c3_counterexample :
    ((rollingAccuracy [1, 1, 1, 1, 1, 1, 1, 5]
        [101/100, 1, 1, 1, 1, 1, 1, 5] : List (AccEntry ℚ)).map
      (fun e => e.accuracy)) = [999/10] ∧
    windowAccuracy ([1, 1, 1, 1, 1, 1, 1] : List ℚ)
      [101/100, 1, 1, 1, 1, 1, 1] = 699/7 ∧
    (999/10 : ℚ) ≠ 699/7 := by
  have h1 : |(1/100 : ℚ)| = 1/100 := abs_of_pos (by norm_num)
  have hw : windowAccuracy ([1, 1, 1, 1, 1, 1, 1] : List ℚ)
      [101/100, 1, 1, 1, 1, 1, 1] = 699/7 := by
    norm_num [windowAccuracy, mapeMean, mapeTerms, mean, List.zip, h1, max_def]
  refine ⟨?_, hw, by norm_num⟩
  norm_num [rollingAccuracy, List.range_succ]
  rw [hw]
  norm_num [round1, round_eq]

/-- Claim C3 as amended: the trend partitions an aligned pair sequence of
length `L` into exactly `(L - 1) / 7` non-overlapping 7-period windows —
the boundary rule `range(7, L, 7)`, dropping the trailing partial window —
and entry `k` covers `actual[7k : 7k+7]` with period label `"Week k+1"` and
accuracy `max(0, 1 - windowed MAPE) * 100` **rounded to one decimal**. -/
theorem c3_rolling {α : Type} [LinearOrderedField α] [FloorRing α]
    (actual predicted : List α)
    (h : predicted.length = actual.length) :
    (rollingAccuracy actual predicted).length = (actual.length - 1) / 7 ∧
    ∀ k (hk : k < (rollingAccuracy actual predicted).length),
      (rollingAccuracy actual predicted)[k] =
        { period := "Week " ++ toString (k + 1)
          accuracy := round1 (windowAccuracy ((actual.drop (7 * k)).take 7)
            ((predicted.drop (7 * k)).take 7))
          endOffset := actual.length - 7 * (k + 1) } := by
  constructor
  · simp [rollingAccuracy]
  · intro k hk
    simp only [rollingAccuracy, List.getElem_map, List.getElem_range]
    have h7 : 7 * (k + 1) - 7 = 7 * k := by omega
    rw [h7]

/-- Witness for C3 at 22 aligned pairs: exactly 3 windows, the trailing
partial window dropped. -/
theorem c3_rolling_witness :
    (rollingAccuracy (List.replicate 22 (1 : ℚ))
      (List.replicate 22 (1 : ℚ))).length = 3 := by
  have h := (c3_rolling (List.replicate 22 (1 : ℚ))
    (List.replicate 22 1) rfl).1
  rw [List.length_replicate] at h
  rw [h]

/-- A model name that was never trained has no entry in the job statuses
nor in the stored results. -/
theorem trainModels_not_mem {ρ : Type} (outcome : String → Except String ρ)
    (m : String) :
    ∀ ms : List String, m ∉ ms →
      (trainModels outcome ms).1.lookup m = none ∧
      (trainModels outcome ms).2.lookup m = none := by
  intro ms
  induction ms with
  | nil => intro _; simp [trainModels]
  | cons a ms ih =>
    intro hm
    have hma : m ≠ a := fun hcontra => hm (hcontra ▸ List.mem_cons_self a ms)
    have hms : m ∉ ms := fun hcontra => hm (List.mem_cons_of_mem a hcontra)
    rcases ih hms with ⟨ih1, ih2⟩
    cases houtcome : outcome a with
    | ok r =>
      simp [trainModels, houtcome, List.lookup, beq_eq_false_iff_ne.mpr hma,
        ih1, ih2]
    | error e =>
      simp [trainModels, houtcome, List.lookup, beq_eq_false_iff_ne.mpr hma,
        ih1, ih2]

/-- Claim C1 as amended (the training batch of `ModelService.train_models`):
a model whose training raises is recorded with status `failed` and the
error message, is absent from the stored results (hence excluded from any
aggregate over them), and every other model of the batch still completes
with its own entry.  (In `BacktestingService.run_backtest` this isolation
does **not** hold — see the counterexample.) -/
theorem c1_train_isolation {ρ : Type} (outcome : String → Except String ρ)
    (selected : List String) (m : String) (hnd : selected.Nodup)
    (hm : m ∈ selected) :
    (∀ e, outcome m = .error e →
      (trainModels outcome selected).1.lookup m = some (.failed e) ∧
      (trainModels outcome selected).2.lookup m = none) ∧
    (∀ r, outcome m = .ok r →
      (trainModels outcome selected).1.lookup m = some .completed ∧
      (trainModels outcome selected).2.lookup m = some r) := by
  revert hnd hm
  induction selected with
  | nil => intro _ hm; simp at hm
  | cons a ms ih =>
    intro hnd hm
    rcases List.nodup_cons.mp hnd with ⟨hna, hnd'⟩
    rcases List.mem_cons.mp hm with rfl | hm'
    · constructor
      · intro e he
        have hnone := trainModels_not_mem outcome m ms hna
        simp [trainModels, he, List.lookup, hnone.2]
      · intro r hr
        simp [trainModels, hr, List.lookup]
    · have hma : m ≠ a := fun hcontra => hna (hcontra ▸ hm')
      rcases ih hnd' hm' with ⟨ih1, ih2⟩
      constructor
      · intro e he
        rcases ih1 e he with ⟨j1, j2⟩
        cases houtcome : outcome a with
        | ok r =>
          simp [trainModels, houtcome, List.lookup,
            beq_eq_false_iff_ne.mpr hma, j1, j2]
        | error e' =>
          simp [trainModels, houtcome, List.lookup,
            beq_eq_false_iff_ne.mpr hma, j1, j2]
      · intro r hr
        rcases ih2 r hr with ⟨j1, j2⟩
        cases houtcome : outcome a with
        | ok r' =>
          simp [trainModels, houtcome, List.lookup,
            beq_eq_false_iff_ne.mpr hma, j1, j2]
        | error e' =>
          simp [trainModels, houtcome, List.lookup,
            beq_eq_false_iff_ne.mpr hma, j1, j2]

/-- Witness for C1 at a concrete two-model batch whose first model fails. -/
theorem c1_train_isolation_witness :
    (trainModels (fun m => if m = "m1" then Except.error "x" else Except.ok 0)
      ["m1", "m2"]).1.lookup "m1" = some (JobStatus.failed "x") ∧
    (trainModels (fun m => if m = "m1" then Except.error "x" else Except.ok 0)
      ["m1", "m2"]).2.lookup "m1" = none ∧
    (trainModels (fun m => if m = "m1" then Except.error "x" else Except.ok 0)
      ["m1", "m2"]).2.lookup "m2" = some 0 := by
  have h1 := (c1_train_isolation
    (fun m => if m = "m1" then Except.error "x" else Except.ok (0 : ℕ))
    ["m1", "m2"] "m1" (by simp) (by simp)).1 "x" (by simp)
  have h2 := (c1_train_isolation
    (fun m => if m = "m1" then Except.error "x" else Except.ok (0 : ℕ))
    ["m1", "m2"] "m2" (by simp) (by simp)).2 0 (by simp)
  exact ⟨h1.1, h1.2, h2.2⟩

/-- Claim C1, counterexample (the batch of `run_backtest`): with two
models where the first one's evaluation raises, the whole call aborts with
that error — the failed model is not recorded in a result entry and the
sibling `"m2"` is never evaluated, contrary to the claim. -/
theorem c1_counterexample :
    runBacktestWith c1FailEval "a1" [("a1", ["m1", "m2"])]
      "30 Days" "7 Days" "7 Days" ["mape"] 0 = .error "boom" := by
  simp [runBacktestWith, evalModels, c1FailEval, List.lookup, Except.map]

/-- The unsorted importance entries carry exactly the feature keys, in
order (one entry per key). -/
theorem mkImportance_names (u : ℕ → ℚ) :
    ∀ (keys : List String) (k : ℕ),
      (mkImportance u keys k).map (fun e => e.feature) = keys := by
  intro keys
  induction keys with
  | nil => intro k; simp [mkImportance]
  | cons f fs ih =>
    intro k
    cases hlook : (staticImportance.lookup f : Option ℚ) with
    | some s => simp [mkImportance, hlook, ih]
    | none => simp [mkImportance, hlook, ih]

/-- Every unsorted importance entry has the static score of its feature
when the lookup table knows it, and a uniform draw from `[0.1, 0.9]`
otherwise. -/
theorem mkImportance_scores (u : ℕ → ℚ)
    (hu : ∀ k, u k ∈ Set.Icc (0.1 : ℚ) 0.9) :
    ∀ (keys : List String) (k : ℕ) (e : ImpEntry),
      e ∈ mkImportance u keys k →
      (∀ s, staticImportance.lookup e.feature = some s → e.importance = s) ∧
      (staticImportance.lookup e.feature = none →
        e.importance ∈ Set.Icc (0.1 : ℚ) 0.9) := by
  intro keys
  induction keys with
  | nil => intro k e he; simp [mkImportance] at he
  | cons f fs ih =>
    intro k e he
    cases hlook : (staticImportance.lookup f : Option ℚ) with
    | some s =>
      rw [mkImportance, hlook] at he
      rcases List.mem_cons.mp he with rfl | he'
      · constructor
        · intro s' hs'
          simp only at hs' ⊢
          rw [hlook] at hs'
          cases hs'
          rfl
        · intro hnone
          simp only at hnone
          rw [hlook] at hnone
          cases hnone
      · exact ih k e he'
    | none =>
      rw [mkImportance, hlook] at he
      rcases List.mem_cons.mp he with rfl | he'
      · constructor
        · intro s' hs'
          simp only at hs'
          rw [hlook] at hs'
          cases hs'
        · intro _
          exact hu k
      · exact ih (k + 1) e he'

/-- Claim C10: the feature-importance list has exactly one entry per
generated feature key (a permutation of the keys), is sorted in
non-increasing order of importance, features in the static lookup table
carry their fixed score, and all others carry a value in `[0.1, 0.9]`
(given that the uniform generator respects its bounds). -/
theorem c10_importance (u : ℕ → ℚ) (keys : List String)
    (hu : ∀ k, u k ∈ Set.Icc (0.1 : ℚ) 0.9) :
    ((calculateFeatureImportance u keys).map (fun e => e.feature)).Perm keys ∧
    List.Sorted impGE (calculateFeatureImportance u keys) ∧
    ∀ e ∈ calculateFeatureImportance u keys,
      (∀ s, staticImportance.lookup e.feature = some s → e.importance = s) ∧
      (staticImportance.lookup e.feature = none →
        e.importance ∈ Set.Icc (0.1 : ℚ) 0.9) := by
  have hp : (calculateFeatureImportance u keys).Perm (mkImportance u keys 0) :=
    List.perm_insertionSort impGE _
  refine ⟨?_, List.sorted_insertionSort impGE _, ?_⟩
  · have hmap := hp.map (fun e => e.feature)
    rw [mkImportance_names] at hmap
    exact hmap
  · intro e he
    exact mkImportance_scores u hu keys 0 e (hp.mem_iff.mp he)

/-- Witness for C10 at a known and an unknown feature name with the
constant draw `1/2`. -/
theorem c10_importance_witness :
    ((calculateFeatureImportance (fun _ => 1/2) ["close", "zzz"]).map
      (fun e => e.feature)).Perm ["close", "zzz"] :=
  (c10_importance (fun _ => 1/2) ["close", "zzz"]
    (fun _ => Set.mem_Icc.mpr (by norm_num))).1

/-- Unfolding equation of `minList` over a cons cell. -/
theorem minList_cons {α : Type} [LinearOrder α] (x y : α) (ys : List α) :
    minList x (y :: ys) = minList (min x y) ys := rfl

/-- Unfolding equation of `maxList` over a cons cell. -/
theorem maxList_cons {α : Type} [LinearOrder α] (x y : α) (ys : List α) :
    maxList x (y :: ys) = maxList (max x y) ys := rfl

/-- Python's `min` picks one of its values. -/
theorem minList_mem {α : Type} [LinearOrder α] :
    ∀ (l : List α) (x : α), minList x l ∈ x :: l := by
  intro l
  induction l with
  | nil => intro x; simp [minList]
  | cons y ys ih =>
    intro x
    rw [minList_cons]
    rcases List.mem_cons.mp (ih (min x y)) with heq | hmem
    · rcases min_choice x y with hc | hc
      · rw [heq, hc]; exact List.mem_cons_self _ _
      · rw [heq, hc]; exact List.mem_cons_of_mem _ (List.mem_cons_self _ _)
    · exact List.mem_cons_of_mem _ (List.mem_cons_of_mem _ hmem)

/-- Python's `min` is a lower bound of its values. -/
theorem minList_le {α : Type} [LinearOrder α] :
    ∀ (l : List α) (x : α), ∀ z ∈ x :: l, minList x l ≤ z := by
  intro l
  induction l with
  | nil =>
    intro x z hz
    rcases List.mem_cons.mp hz with rfl | hz'
    · exact le_refl _
    · simp at hz'
  | cons y ys ih =>
    intro x z hz
    rw [minList_cons]
    have hbase : minList (min x y) ys ≤ min x y :=
      ih (min x y) _ (List.mem_cons_self _ _)
    rcases List.mem_cons.mp hz with rfl | hz'
    · exact le_trans hbase (min_le_left _ _)
    · rcases List.mem_cons.mp hz' with rfl | hz''
      · exact le_trans hbase (min_le_right _ _)
      · exact ih (min x y) z (List.mem_cons_of_mem _ hz'')

/-- Python's `max` picks one of its values. -/
theorem maxList_mem {α : Type} [LinearOrder α] :
    ∀ (l : List α) (x : α), maxList x l ∈ x :: l := by
  intro l
  induction l with
  | nil => intro x; simp [maxList]
  | cons y ys ih =>
    intro x
    rw [maxList_cons]
    rcases List.mem_cons.mp (ih (max x y)) with heq | hmem
    · rcases max_choice x y with hc | hc
      · rw [heq, hc]; exact List.mem_cons_self _ _
      · rw [heq, hc]; exact List.mem_cons_of_mem _ (List.mem_cons_self _ _)
    · exact List.mem_cons_of_mem _ (List.mem_cons_of_mem _ hmem)

/-- Python's `max` is an upper bound of its values. -/
theorem le_maxList {α : Type} [LinearOrder α] :
    ∀ (l : List α) (x : α), ∀ z ∈ x :: l, z ≤ maxList x l := by
  intro l
  induction l with
  | nil =>
    intro x z hz
    rcases List.mem_cons.mp hz with rfl | hz'
    · exact le_refl _
    · simp at hz'
  | cons y ys ih =>
    intro x z hz
    rw [maxList_cons]
    have hbase : max x y ≤ maxList (max x y) ys :=
      ih (max x y) _ (List.mem_cons_self _ _)
    rcases List.mem_cons.mp hz with rfl | hz'
    · exact le_trans (le_max_left _ _) hbase
    · rcases List.mem_cons.mp hz' with rfl | hz''
      · exact le_trans (le_max_right _ _) hbase
      · exact ih (max x y) z (List.mem_cons_of_mem _ hz'')

/-- The `best_{metric}` value is one of the collected values and is the
minimum for error metrics, the maximum otherwise. -/
theorem bestValue_spec {α : Type} [LinearOrder α] [Zero α] (name : String)
    (values : List α) (h : values ≠ []) :
    bestValue name values ∈ values ∧
      (if name ∈ errorMetricNames
        then ∀ x ∈ values, bestValue name values ≤ x
        else ∀ x ∈ values, x ≤ bestValue name values) := by
  cases values with
  | nil => cases h rfl
  | cons v vs =>
    by_cases hname : name ∈ errorMetricNames
    · simp only [bestValue, if_pos hname]
      exact ⟨minList_mem vs v, minList_le vs v⟩
    · simp only [bestValue, if_neg hname]
      exact ⟨maxList_mem vs v, le_maxList vs v⟩

/-- Appending a value for key `k` updates exactly `k`'s collected list. -/
theorem lookup_addMetricValue_self {α : Type}
    (d : List (String × List α)) (k : String) (v : α) :
    (addMetricValue d k v).lookup k = some (((d.lookup k).getD []) ++ [v]) := by
  induction d with
  | nil => simp [addMetricValue, List.lookup]
  | cons a rest ih =>
    rcases a with ⟨k', vs⟩
    by_cases hk : k' = k
    · subst hk
      simp [addMetricValue, List.lookup]
    · have hbe : (k == k') = false := beq_eq_false_iff_ne.mpr (Ne.symm hk)
      simp [addMetricValue, hk, List.lookup, hbe, ih]

/-- Appending a value for key `k` leaves other keys' lists unchanged. -/
theorem lookup_addMetricValue_ne {α : Type}
    (d : List (String × List α)) (k : String) (v : α) (k' : String)
    (h : k' ≠ k) :
    (addMetricValue d k v).lookup k' = d.lookup k' := by
  induction d with
  | nil => simp [addMetricValue, List.lookup, beq_eq_false_iff_ne.mpr h]
  | cons a rest ih =>
    rcases a with ⟨k₁, vs⟩
    by_cases hk : k₁ = k
    · subst hk
      simp [addMetricValue, List.lookup, beq_eq_false_iff_ne.mpr h]
    · by_cases hk' : k' = k₁
      · subst hk'
        simp [addMetricValue, hk, List.lookup]
      · simp [addMetricValue, hk, List.lookup,
          beq_eq_false_iff_ne.mpr hk', ih]

/-- The grouping fold collects, per key, exactly the values carried by that
key in encounter order. -/
theorem lookup_foldl_addMetricValue {α : Type} :
    ∀ (L : List (String × α)) (d : List (String × List α)) (k : String),
      (((L.foldl (fun d kv => addMetricValue d kv.1 kv.2) d).lookup k).getD [])
        = ((d.lookup k).getD []) ++ (L.filter (fun kv => kv.1 == k)).map Prod.snd := by
  intro L
  induction L with
  | nil => intro d k; simp
  | cons kv rest ih =>
    intro d k
    rcases kv with ⟨k₁, v₁⟩
    rw [List.foldl_cons, ih]
    by_cases hk : k₁ = k
    · subst hk
      rw [lookup_addMetricValue_self]
      simp [List.filter_cons]
    · rw [lookup_addMetricValue_ne d k₁ v₁ k (Ne.symm hk)]
      simp [List.filter_cons, beq_eq_false_iff_ne.mpr hk]

/-- `all_metrics` holds, for every metric name, exactly the values that
appear for that name across the models, in iteration order. -/
theorem allMetrics_getD {α : Type} (results : List (String × MetricRecord α))
    (name : String) :
    (((allMetrics results).lookup name).getD []) =
      collectedValues results name := by
  unfold allMetrics collectedValues
  rw [lookup_foldl_addMetricValue]
  simp

/-- A successful association-list lookup produces a member. -/
theorem mem_of_lookup_eq_some {β : Type} :
    ∀ {d : List (String × β)} {k : String} {v : β},
      d.lookup k = some v → (k, v) ∈ d := by
  intro d
  induction d with
  | nil => intro k v h; simp [List.lookup] at h
  | cons a rest ih =>
    intro k v h
    rcases a with ⟨k₁, v₁⟩
    rw [List.lookup] at h
    by_cases hk : k = k₁
    · subst hk
      rw [beq_self_eq_true] at h
      simp only at h
      cases h
      exact List.mem_cons_self _ _
    · rw [beq_eq_false_iff_ne.mpr hk] at h
      simp only at h
      exact List.mem_cons_of_mem _ (ih h)

/-- Python's `min(seq, key=f)` returns the first element attaining the
minimal key: the input splits around the result so that every earlier
element has a strictly larger key and every element has a key at least as
large. -/
theorem pickMinBy_split {β γ : Type} [LinearOrder γ] (f : β → γ) :
    ∀ (l : List β) (b : β), ∃ pre post,
      b :: l = pre ++ pickMinBy f b l :: post ∧
      (∀ x ∈ pre, f (pickMinBy f b l) < f x) ∧
      (∀ x ∈ b :: l, f (pickMinBy f b l) ≤ f x) := by
  intro l
  induction l with
  | nil =>
    intro b
    exact ⟨[], [], rfl, by simp, by simp [pickMinBy]⟩
  | cons y ys ih =>
    intro b
    rw [pickMinBy]
    by_cases hlt : f y < f b
    · rw [if_pos hlt]
      rcases ih y with ⟨pre', post', heq, hstrict, hmin⟩
      refine ⟨b :: pre', post', ?_, ?_, ?_⟩
      · rw [List.cons_append, ← heq]
      · intro x hx
        rcases List.mem_cons.mp hx with rfl | hx'
        · exact lt_of_le_of_lt (hmin y (List.mem_cons_self _ _)) hlt
        · exact hstrict x hx'
      · intro x hx
        rcases List.mem_cons.mp hx with rfl | hx'
        · exact le_of_lt (lt_of_le_of_lt (hmin y (List.mem_cons_self _ _)) hlt)
        · exact hmin x hx'
    · rw [if_neg hlt]
      have hby : f b ≤ f y := le_of_not_lt hlt
      rcases ih b with ⟨pre', post', heq, hstrict, hmin⟩
      cases pre' with
      | nil =>
        rw [List.nil_append] at heq
        injection heq with h1 h2
        refine ⟨[], y :: ys, ?_, by simp, ?_⟩
        · rw [List.nil_append, ← h1]
        · intro x hx
          rcases List.mem_cons.mp hx with rfl | hx'
          · rw [← h1]
          · rcases List.mem_cons.mp hx' with rfl | hx''
            · rw [← h1]; exact hby
            · exact hmin x (List.mem_cons_of_mem _ (h2 ▸ hx''))
      | cons p ps =>
        rw [List.cons_append] at heq
        injection heq with h1 h2
        refine ⟨b :: y :: ps, post', ?_, ?_, ?_⟩
        · rw [List.cons_append, List.cons_append, ← h2]
        · intro x hx
          have hstrictb : f (pickMinBy f b ys) < f b := by
            have := hstrict p (List.mem_cons_self _ _)
            rw [← h1] at this
            exact this
          rcases List.mem_cons.mp hx with rfl | hx'
          · exact hstrictb
          · rcases List.mem_cons.mp hx' with rfl | hx''
            · exact lt_of_lt_of_le hstrictb hby
            · exact hstrict x (List.mem_cons_of_mem _ hx'')
        · intro x hx
          have hstrictb : f (pickMinBy f b ys) < f b := by
            have := hstrict p (List.mem_cons_self _ _)
            rw [← h1] at this
            exact this
          rcases List.mem_cons.mp hx with rfl | hx'
          · exact hmin x (List.mem_cons_self _ _)
          · rcases List.mem_cons.mp hx' with rfl | hx''
            · exact le_of_lt (lt_of_lt_of_le hstrictb hby)
            · exact hmin x (List.mem_cons_of_mem _ hx'')

/-- When no later element improves strictly on the start, Python's
keyed `min` keeps the start (first occurrence wins ties). -/
theorem pickMinBy_of_not_lt {β γ : Type} [LinearOrder γ] (f : β → γ) :
    ∀ (l : List β) (b : β), (∀ y ∈ l, ¬ f y < f b) →
      pickMinBy f b l = b := by
  intro l
  induction l with
  | nil => intro b _; rfl
  | cons y ys ih =>
    intro b h
    rw [pickMinBy, if_neg (h y (List.mem_cons_self _ _))]
    exact ih b (fun z hz => h z (List.mem_cons_of_mem _ hz))

/-- Claim C4: for every non-empty per-model result mapping, the aggregate
statistics contain, for every metric name occurring in some model's metric
set, its `avg_` entry (the arithmetic mean of the collected values) and its
`best_` entry (a collected value that is minimal for the error metrics
`mae`/`rmse`/`mape` and maximal otherwise); and the best overall model is
the first model, in iteration order, whose MAPE key (missing MAPE reads as
`+inf`) is minimal. -/
theorem c4_overall_stats {α : Type} [LinearOrderedField α]
    (results : List (String × MetricRecord α)) (h : results ≠ []) :
    ∃ st, calculateOverallStats results = some st ∧
      (∀ name, collectedValues results name ≠ [] →
        ("avg_" ++ name, mean (collectedValues results name)) ∈
          st.summaryMetrics ∧
        ∃ b, ("best_" ++ name, b) ∈ st.summaryMetrics ∧
          b ∈ collectedValues results name ∧
          (if name ∈ errorMetricNames
            then ∀ x ∈ collectedValues results name, b ≤ x
            else ∀ x ∈ collectedValues results name, x ≤ b)) ∧
      (∀ mn ∈ results.map Prod.fst,
        mapeKey results st.bestModel ≤ mapeKey results mn) ∧
      (∃ pre post, results.map Prod.fst = pre ++ st.bestModel :: post ∧
        ∀ mn ∈ pre, mapeKey results st.bestModel < mapeKey results mn) := by
  rcases results with _ | ⟨⟨m0, r0⟩, rest⟩
  · exact absurd rfl h
  refine ⟨_, rfl, ?_, ?_, ?_⟩
  · intro name hne
    have hget := allMetrics_getD ((m0, r0) :: rest) name
    have hlkp : (allMetrics ((m0, r0) :: rest)).lookup name =
        some (collectedValues ((m0, r0) :: rest) name) := by
      cases hcase : (allMetrics ((m0, r0) :: rest)).lookup name with
      | none =>
        rw [hcase] at hget
        simp only [Option.getD_none] at hget
        exact absurd hget.symm hne
      | some vals =>
        rw [hcase] at hget
        simp only [Option.getD_some] at hget
        rw [hget]
    have hmem : (name, collectedValues ((m0, r0) :: rest) name) ∈
        allMetrics ((m0, r0) :: rest) := mem_of_lookup_eq_some hlkp
    refine ⟨List.mem_flatMap.mpr ⟨_, hmem, by simp⟩,
      bestValue name (collectedValues ((m0, r0) :: rest) name),
      List.mem_flatMap.mpr ⟨_, hmem, by simp⟩,
      (bestValue_spec name _ hne).1, (bestValue_spec name _ hne).2⟩
  · intro mn hmn
    rcases pickMinBy_split (mapeKey ((m0, r0) :: rest)) (rest.map Prod.fst) m0
      with ⟨pre, post, heq, hstrict, hminall⟩
    rw [List.map_cons] at hmn
    exact hminall mn hmn
  · rcases pickMinBy_split (mapeKey ((m0, r0) :: rest)) (rest.map Prod.fst) m0
      with ⟨pre, post, heq, hstrict, hminall⟩
    refine ⟨pre, post, ?_, hstrict⟩
    rw [List.map_cons]
    exact heq

/-- A batch over a total (never-raising) evaluator succeeds with one entry
per model, in order. -/
theorem evalModels_pure (f : String → BTResult) :
    ∀ l : List String,
      evalModels (fun m => .ok (f m)) l = .ok (l.map (fun m => (m, f m))) := by
  intro l
  induction l with
  | nil => rfl
  | cons m ms ih => simp [evalModels, ih, Except.map]

/-- Association lookup over a tabulated list returns the tabulated value. -/
theorem lookup_map_tabulate {δ : Type} (f : String → δ) :
    ∀ (l : List String) (m : String), m ∈ l →
      (l.map (fun x => (x, f x))).lookup m = some (f m) := by
  intro l
  induction l with
  | nil => intro m hm; simp at hm
  | cons a as ih =>
    intro m hm
    by_cases hma : m = a
    · subst hma
      simp [List.lookup]
    · rcases List.mem_cons.mp hm with rfl | hm'
      · exact absurd rfl hma
      · simp [List.lookup, beq_eq_false_iff_ne.mpr hma, ih m hm']

/-- The synthetic backtest result depends on the model name only through
the `model_name` field: it equals any other model's result with the name
replaced. -/
theorem backtestModel_name (g : ℕ → ℝ) (now : ℤ) (m m0 : String)
    (pd : ℕ) (mets : List String) :
    backtestModel g now m pd mets =
      { backtestModel g now m0 pd mets with modelName := m } := rfl

/-- Witness for C4 at a concrete two-model result mapping. -/
theorem c4_overall_stats_witness :
    ∃ st, calculateOverallStats
      [("m1", (⟨[("mape", 2)], 0, 0⟩ : MetricRecord ℚ)),
       ("m2", ⟨[("mape", 1)], 0, 0⟩)] = some st := by
  obtain ⟨st, hst, -⟩ := c4_overall_stats
    [("m1", (⟨[("mape", 2)], 0, 0⟩ : MetricRecord ℚ)),
     ("m2", ⟨[("mape", 1)], 0, 0⟩)] (by simp)
  exact ⟨st, hst⟩

/-- The MAPE sort key of a model found in the results. -/
theorem mapeKey_lookup_some {α : Type} (L : List (String × MetricRecord α))
    (z : String) (r : MetricRecord α) (h : L.lookup z = some r) :
    mapeKey L z =
      (match r.metrics.lookup "mape" with
        | none => (⊤ : WithTop α)
        | some v => (v : WithTop α)) := by
  unfold mapeKey
  rw [h]

/-- When every model's metric dict is the same, the best model of the
aggregate statistics over a tabulated result list is the first model. -/
theorem bestModel_tabulate {α : Type} [LinearOrderedField α]
    (F : String → MetricRecord α)
    (hF : ∀ m m', (F m).metrics = (F m').metrics)
    (m0 : String) (ms : List String) :
    ∃ st, calculateOverallStats ((m0 :: ms).map (fun m => (m, F m)))
        = some st ∧ st.bestModel = m0 := by
  have hlk : ∀ z ∈ m0 :: ms,
      ((m0, F m0) :: ms.map (fun m => (m, F m))).lookup z = some (F z) := by
    intro z hz
    have h' := lookup_map_tabulate F (m0 :: ms) z hz
    rw [List.map_cons] at h'
    exact h'
  rw [List.map_cons]
  refine ⟨_, rfl, ?_⟩
  show pickMinBy (mapeKey ((m0, F m0) :: ms.map (fun m => (m, F m)))) m0
    ((ms.map (fun m => (m, F m))).map Prod.fst) = m0
  have hfst : (ms.map (fun m => (m, F m))).map Prod.fst = ms := by
    clear hlk
    induction ms with
    | nil => rfl
    | cons a as ih => simp only [List.map_cons] at ih ⊢; rw [ih]
  rw [hfst]
  apply pickMinBy_of_not_lt
  intro y hy
  rw [mapeKey_lookup_some _ y (F y) (hlk y (List.mem_cons_of_mem _ hy)),
    mapeKey_lookup_some _ m0 (F m0) (hlk m0 (List.mem_cons_self _ _)),
    hF y m0]
  exact lt_irrefl _

/-- Claim C9: because `_backtest_model` reseeds numpy with the constant 42
at the start of each model's evaluation (here: every call receives the same
post-seed stream `g`), every requested model's result is the first model's
result with only the name replaced — identical synthetic series, metric
values and rolling accuracy — and the reported best model is the first
model in iteration order. -/
theorem c9_seed_reuse (g : ℕ → ℝ) (now : ℤ) (analysisId : String)
    (table : List (String × List String)) (pr ro fh : String)
    (mets : List String) (m0 : String) (ms : List String)
    (hid : table.lookup analysisId = some (m0 :: ms)) :
    ∃ out, runBacktest g analysisId table pr ro fh mets now = .ok out ∧
      (∀ m ∈ m0 :: ms, out.results.lookup m =
        some { backtestModel g now m0 (parsePeriod pr) mets with
          modelName := m }) ∧
      ∃ st, out.overallStats = some st ∧ st.bestModel = m0 := by
  have hEv := evalModels_pure
    (fun m => backtestModel g now m (parsePeriod pr) mets) (m0 :: ms)
  have hrun : runBacktest g analysisId table pr ro fh mets now =
      .ok { analysisId := analysisId
            results := (m0 :: ms).map (fun m =>
              (m, backtestModel g now m (parsePeriod pr) mets))
            overallStats := calculateOverallStats
              (((m0 :: ms).map (fun m =>
                (m, backtestModel g now m (parsePeriod pr) mets))).map
                (fun r => (r.1, ⟨r.2.metrics, r.2.periodStart, r.2.periodEnd⟩)))
            period := pr
            rollingWindow := ro
            forecastHorizon := fh
            metricNames := mets
            completedAt := now } := by
    simp only [runBacktest, runBacktestWith, hid, hEv, Except.map]
  refine ⟨_, hrun, ?_, ?_⟩
  · intro m hm
    show ((m0 :: ms).map (fun x =>
      (x, backtestModel g now x (parsePeriod pr) mets))).lookup m = _
    rw [lookup_map_tabulate _ (m0 :: ms) m hm]
    rfl
  · have hconv : (((m0 :: ms).map (fun m =>
        (m, backtestModel g now m (parsePeriod pr) mets))).map (fun r =>
        (r.1, (⟨r.2.metrics, r.2.periodStart, r.2.periodEnd⟩ :
          MetricRecord ℝ)))) =
        (m0 :: ms).map (fun m =>
          (m, (⟨(backtestModel g now m (parsePeriod pr) mets).metrics,
            (backtestModel g now m (parsePeriod pr) mets).periodStart,
            (backtestModel g now m (parsePeriod pr) mets).periodEnd⟩ :
            MetricRecord ℝ))) := by
      rw [List.map_map]
      rfl
    show ∃ st, calculateOverallStats
      (((m0 :: ms).map (fun m =>
        (m, backtestModel g now m (parsePeriod pr) mets))).map
        (fun r => (r.1, ⟨r.2.metrics, r.2.periodStart, r.2.periodEnd⟩)))
      = some st ∧ st.bestModel = m0
    rw [hconv]
    exact bestModel_tabulate _ (fun _ _ => rfl) m0 ms

/-- A lookup in an upserted association list succeeds for the new key and
for exactly the keys that already succeeded. -/
theorem lookup_upsert_isSome (d : List (String × FeatInfo)) (k : String)
    (v : FeatInfo) (f : String) :
    (((upsert d k v).lookup f).isSome = true) ↔
      (f = k ∨ ((d.lookup f).isSome = true)) := by
  induction d with
  | nil =>
    by_cases hfk : f = k
    · subst hfk; simp [upsert, List.lookup]
    · simp [upsert, List.lookup, beq_eq_false_iff_ne.mpr hfk, hfk]
  | cons a rest ih =>
    rcases a with ⟨k', v'⟩
    by_cases hk : k' = k
    · subst hk
      by_cases hfk : f = k'
      · subst hfk; simp [upsert, List.lookup]
      · simp [upsert, List.lookup, beq_eq_false_iff_ne.mpr hfk, hfk]
    · by_cases hfk : f = k'
      · subst hfk
        simp [upsert, hk, List.lookup]
      · simp [upsert, hk, List.lookup, beq_eq_false_iff_ne.mpr hfk, ih]

/-- The feature-generation loop produces an entry for precisely the
requested-and-recognized feature names (besides what the accumulator
already holds). -/
theorem buildFeatures_lookup_isSome (df : List Row) :
    ∀ (fs : List String) (acc : List (String × FeatInfo)) (f : String),
      (((buildFeatures df fs acc).lookup f).isSome = true) ↔
        (((acc.lookup f).isSome = true) ∨
          (f ∈ fs ∧ (featureColumn df f).isSome = true)) := by
  intro fs
  induction fs with
  | nil => intro acc f; simp [buildFeatures]
  | cons a as ih =>
    intro acc f
    cases hcol : featureColumn df a with
    | some col =>
      simp only [buildFeatures, hcol]
      rw [ih, lookup_upsert_isSome]
      constructor
      · rintro ((rfl | hacc) | ⟨hmem, hkn⟩)
        · exact Or.inr ⟨List.mem_cons_self _ _, by rw [hcol]; rfl⟩
        · exact Or.inl hacc
        · exact Or.inr ⟨List.mem_cons_of_mem _ hmem, hkn⟩
      · rintro (hacc | ⟨hmem, hkn⟩)
        · exact Or.inl (Or.inr hacc)
        · rcases List.mem_cons.mp hmem with rfl | hmem'
          · exact Or.inl (Or.inl rfl)
          · exact Or.inr ⟨hmem', hkn⟩
    | none =>
      simp only [buildFeatures, hcol]
      rw [ih]
      constructor
      · rintro (hacc | ⟨hmem, hkn⟩)
        · exact Or.inl hacc
        · exact Or.inr ⟨List.mem_cons_of_mem _ hmem, hkn⟩
      · rintro (hacc | ⟨hmem, hkn⟩)
        · exact Or.inl hacc
        · rcases List.mem_cons.mp hmem with rfl | hmem'
          · rw [hcol] at hkn; cases hkn
          · exact Or.inr ⟨hmem', hkn⟩

/-- Claim C8: on a non-empty series, `generate_features` with an explicit
(`custom`) feature list never raises on unknown feature names — the call
succeeds, and the features dictionary has an entry exactly for each
requested name that `_generate_feature` recognizes (returns a column for);
unknown names are merely skipped. -/
theorem c8_unknown_skipped (ticker : String) (sel : List String)
    (rows : List Row) (u : ℕ → ℚ) (t : ℕ) (h : rows ≠ []) :
    ∃ out, generateFeatures ticker "custom" sel rows u t = .ok out ∧
      ∀ f, (((out.features.lookup f).isSome = true) ↔
        (f ∈ sel ∧ (featureColumn (sortRows rows) f).isSome = true)) := by
  have hne : rows.isEmpty = false := by
    cases rows
    · exact absurd rfl h
    · rfl
  have hout : generateFeatures ticker "custom" sel rows u t =
      .ok { features := buildFeatures (sortRows rows) sel []
            featureImportance := calculateFeatureImportance u
              ((buildFeatures (sortRows rows) sel []).map Prod.fst)
            correlationMatrix := calculateCorrelationMatrix
              ((buildFeatures (sortRows rows) sel []).map
                (fun p => p.2.values))
            selectedFeatures := sel
            ticker := ticker
            generatedAt := t } := by
    unfold generateFeatures
    rw [hne]
    simp only [reduceIte, Bool.false_eq_true, if_false]
  refine ⟨_, hout, ?_⟩
  intro f
  show (((buildFeatures (sortRows rows) sel []).lookup f).isSome = true) ↔ _
  rw [buildFeatures_lookup_isSome (sortRows rows) sel [] f]
  simp [List.lookup]

/-- Witness for C8: a recognized and an unrecognized requested name on a
one-row series. -/
theorem c8_unknown_skipped_witness :
    ∃ out, generateFeatures "T" "custom" ["close", "nope"] rowsOne
      (fun _ => 0) 0 = .ok out ∧
      ∀ f, (((out.features.lookup f).isSome = true) ↔
        (f ∈ ["close", "nope"] ∧
          (featureColumn (sortRows rowsOne) f).isSome = true)) :=
  c8_unknown_skipped "T" ["close", "nope"] rowsOne (fun _ => 0) 0
    (by simp [rowsOne])

/-- A mapped list sum as a sum over positions. -/
theorem list_sum_map_fin {β : Type} (l : List β) (f : β → ℝ) :
    (l.map f).sum = ∑ i : Fin l.length, f (l.get i) := by
  induction l with
  | nil => simp
  | cons a as ih =>
    rw [List.map_cons, List.sum_cons, ih]
    calc f a + ∑ i : Fin as.length, f (as.get i)
        = f ((a :: as).get (0 : Fin (as.length + 1))) +
          ∑ i : Fin as.length, f ((a :: as).get i.succ) := rfl
      _ = ∑ i : Fin (as.length + 1), f ((a :: as).get i) :=
          (Fin.sum_univ_succ
            (fun i : Fin (as.length + 1) => f ((a :: as).get i))).symm
      _ = ∑ i : Fin (a :: as).length, f ((a :: as).get i) := rfl

/-- Cauchy-Schwarz for the centered sums: the squared covariance numerator
is at most the product of the variance numerators. -/
theorem covSum_sq_le (ps : List (ℝ × ℝ)) :
    covSum ps ^ 2 ≤ devSq (ps.map Prod.fst) * devSq (ps.map Prod.snd) := by
  unfold covSum devSq
  rw [List.map_map, List.map_map]
  rw [list_sum_map_fin ps, list_sum_map_fin ps, list_sum_map_fin ps]
  exact Finset.sum_mul_sq_le_sq_mul_sq Finset.univ
    (fun i => (ps.get i).1 - mean (ps.map Prod.fst))
    (fun i => (ps.get i).2 - mean (ps.map Prod.snd))

/-- The variance numerator is a sum of squares. -/
theorem devSq_nonneg (l : List ℝ) : 0 ≤ devSq l := by
  unfold devSq
  apply List.sum_nonneg
  intro x hx
  rcases List.mem_map.mp hx with ⟨y, -, rfl⟩
  positivity

/-- Each correlation entry lies in `[-1, 1]` (including the `NaN -> 0`
substituted entries). -/
theorem abs_pearson_le_one (xs ys : List (Option ℝ)) :
    |pearson xs ys| ≤ 1 := by
  simp only [pearson]
  set ps := pairedObs xs ys
  set A := devSq (ps.map Prod.fst) with hA
  set B := devSq (ps.map Prod.snd) with hB
  by_cases hd : A * B = 0
  · rw [if_pos hd]
    simp
  · rw [if_neg hd]
    have hA0 : 0 ≤ A := devSq_nonneg _
    have hB0 : 0 ≤ B := devSq_nonneg _
    have hABpos : 0 < A * B := lt_of_le_of_ne (mul_nonneg hA0 hB0) (Ne.symm hd)
    have hcs : covSum ps ^ 2 ≤ A * B := covSum_sq_le ps
    have hsq : |covSum ps| ≤ Real.sqrt (A * B) := by
      rw [← Real.sqrt_sq_eq_abs]
      exact Real.sqrt_le_sqrt hcs
    rw [abs_div, abs_of_nonneg (Real.sqrt_nonneg _),
      div_le_one (Real.sqrt_pos.mpr hABpos)]
    exact hsq

/-- Pairing against an empty column selects nothing. -/
theorem pairedObs_nil_left (ys : List (Option ℝ)) : pairedObs [] ys = [] := by
  simp [pairedObs]

/-- Pairing with an empty column selects nothing. -/
theorem pairedObs_nil_right (xs : List (Option ℝ)) : pairedObs xs [] = [] := by
  simp [pairedObs]

/-- Correlation against an empty column is the substituted 0. -/
theorem pearson_nil_left (ys : List (Option ℝ)) : pearson [] ys = 0 := by
  simp [pearson, pairedObs_nil_left, devSq]

/-- Correlation with an empty column is the substituted 0. -/
theorem pearson_nil_right (xs : List (Option ℝ)) : pearson xs [] = 0 := by
  simp [pearson, pairedObs_nil_right, devSq]

/-- Swapping the column order swaps each paired observation. -/
theorem pairedObs_swap (xs ys : List (Option ℝ)) :
    pairedObs ys xs = (pairedObs xs ys).map Prod.swap := by
  unfold pairedObs
  rw [← List.zip_swap xs ys, List.filterMap_map, List.map_filterMap]
  congr 1
  funext q
  rcases q with ⟨oa, ob⟩
  cases oa <;> cases ob <;> rfl

/-- The covariance numerator is symmetric in the two coordinates. -/
theorem covSum_map_swap (ps : List (ℝ × ℝ)) :
    covSum (ps.map Prod.swap) = covSum ps := by
  have h1 : (ps.map Prod.swap).map Prod.fst = ps.map Prod.snd := by
    rw [List.map_map]
    rfl
  have h2 : (ps.map Prod.swap).map Prod.snd = ps.map Prod.fst := by
    rw [List.map_map]
    rfl
  unfold covSum
  rw [h1, h2, List.map_map]
  congr 1
  apply List.map_congr_left
  intro p _
  show (p.2 - mean (List.map Prod.snd ps)) * (p.1 - mean (List.map Prod.fst ps)) = _
  ring

/-- Claim C2's symmetry: the Pearson entry is symmetric in its columns. -/
theorem pearson_comm (xs ys : List (Option ℝ)) :
    pearson xs ys = pearson ys xs := by
  have h1 : ((pairedObs xs ys).map Prod.swap).map Prod.fst =
      (pairedObs xs ys).map Prod.snd := by
    rw [List.map_map]
    rfl
  have h2 : ((pairedObs xs ys).map Prod.swap).map Prod.snd =
      (pairedObs xs ys).map Prod.fst := by
    rw [List.map_map]
    rfl
  simp only [pearson]
  rw [pairedObs_swap xs ys, h1, h2, covSum_map_swap,
    mul_comm (devSq ((pairedObs xs ys).map Prod.snd))
      (devSq ((pairedObs xs ys).map Prod.fst))]

/-- Self-pairing duplicates the defined entries of the column. -/
theorem pairedObs_self (c : List (Option ℝ)) :
    pairedObs c c = (c.filterMap id).map (fun a => (a, a)) := by
  induction c with
  | nil => rfl
  | cons o os ih =>
    cases o <;> simp [pairedObs] at ih ⊢ <;> exact ih

/-- A diagonal entry of the correlation matrix is 1 when the column's
paired observations have nonzero variance, and the `NaN -> 0` substitution
yields 0 otherwise. -/
theorem pearson_self (c : List (Option ℝ)) :
    pearson c c =
      if devSq ((pairedObs c c).map Prod.fst) = 0 then 0 else 1 := by
  have hfst : (pairedObs c c).map Prod.fst = c.filterMap id := by
    rw [pairedObs_self, List.map_map]
    have hcomp : (Prod.fst ∘ fun a : ℝ => (a, a)) = id := rfl
    rw [hcomp, List.map_id]
  have hsnd : (pairedObs c c).map Prod.snd = c.filterMap id := by
    rw [pairedObs_self, List.map_map]
    have hcomp : (Prod.snd ∘ fun a : ℝ => (a, a)) = id := rfl
    rw [hcomp, List.map_id]
  have hcov : covSum (pairedObs c c) = devSq (c.filterMap id) := by
    unfold covSum devSq
    rw [hfst, hsnd, pairedObs_self, List.map_map]
    congr 1
    apply List.map_congr_left
    intro a _
    show (a - mean (c.filterMap id)) * (a - mean (c.filterMap id)) = _
    ring
  simp only [pearson]
  rw [hfst, hsnd, hcov]
  by_cases hv0 : devSq (c.filterMap id) = 0
  · simp [hv0]
  · rw [if_neg (by simpa [mul_self_eq_zero] using hv0), if_neg hv0]
    rw [show devSq (c.filterMap id) * devSq (c.filterMap id) =
      devSq (c.filterMap id) ^ 2 by ring,
      Real.sqrt_sq (devSq_nonneg _)]
    exact div_self hv0

@[simp] theorem length_rollWin (w : ℕ) (f : List ℝ → ℝ) (xs : List ℝ) :
    (rollWin w f xs).length = xs.length := by
  simp [rollWin]

@[simp] theorem length_emaCol (w : ℕ) (xs : List ℝ) :
    (emaCol w xs).length = xs.length := by
  simp [emaCol]

@[simp] theorem length_rsiCol (xs : List ℝ) :
    (rsiCol xs).length = xs.length := by
  simp [rsiCol]

@[simp] theorem length_combine2 (f : ℝ → ℝ → ℝ) (c1 c2 : List (Option ℝ)) :
    (combine2 f c1 c2).length = min c1.length c2.length := by
  simp [combine2]

@[simp] theorem length_macdCol (xs : List ℝ) :
    (macdCol xs).length = xs.length := by
  simp [macdCol]

@[simp] theorem length_emaOptCol (w : ℕ) (col : List (Option ℝ)) :
    (emaOptCol w col).length = col.length := by
  simp [emaOptCol]

@[simp] theorem length_macdSignalCol (xs : List ℝ) :
    (macdSignalCol xs).length = xs.length := by
  simp [macdSignalCol]

@[simp] theorem length_pctChangeCol (xs : List ℝ) :
    (pctChangeCol xs).length = xs.length := by
  cases xs with
  | nil => rfl
  | cons x rest => simp [pctChangeCol]

@[simp] theorem length_logReturnCol (xs : List ℝ) :
    (logReturnCol xs).length = xs.length := by
  cases xs with
  | nil => rfl
  | cons x rest => simp [logReturnCol]

@[simp] theorem length_volatilityCol (xs : List ℝ) :
    (volatilityCol xs).length = xs.length := by
  simp [volatilityCol]

@[simp] theorem length_trueRanges (df : List Row) :
    (trueRanges df).length = df.length := by
  cases df with
  | nil => rfl
  | cons r rest => simp [trueRanges]

@[simp] theorem length_atrCol (df : List Row) :
    (atrCol df).length = df.length := by
  simp [atrCol]

@[simp] theorem length_stochCol (df : List Row) :
    (stochCol df).length = df.length := by
  simp [stochCol]

@[simp] theorem length_williamsRCol (df : List Row) :
    (williamsRCol df).length = df.length := by
  simp [williamsRCol]

@[simp] theorem length_volumeSmaCol (df : List Row) :
    (volumeSmaCol df).length = df.length := by
  simp [volumeSmaCol]

@[simp] theorem length_constCol (c : ℝ) (n : ℕ) :
    (constCol c n).length = n := by
  simp [constCol]

/-- Every generated feature column is aligned with the DataFrame: same
length as the input series. -/
theorem featureColumn_length (df : List Row) (f : String)
    (col : List (Option ℝ)) (h : featureColumn df f = some col) :
    col.length = df.length := by
  unfold featureColumn at h
  rcases eq_or_ne f "close" with h1 | h1
  · rw [if_pos h1] at h; injection h with h; subst h; simp
  rw [if_neg h1] at h
  rcases eq_or_ne f "volume" with h2 | h2
  · rw [if_pos h2] at h; injection h with h; subst h; simp
  rw [if_neg h2] at h
  rcases eq_or_ne f "open" with h3 | h3
  · rw [if_pos h3] at h; injection h with h; subst h; simp
  rw [if_neg h3] at h
  rcases eq_or_ne f "high" with h4 | h4
  · rw [if_pos h4] at h; injection h with h; subst h; simp
  rw [if_neg h4] at h
  rcases eq_or_ne f "low" with h5 | h5
  · rw [if_pos h5] at h; injection h with h; subst h; simp
  rw [if_neg h5] at h
  rcases eq_or_ne f "sma_20" with h6 | h6
  · rw [if_pos h6] at h; injection h with h; subst h; simp
  rw [if_neg h6] at h
  rcases eq_or_ne f "sma_50" with h7 | h7
  · rw [if_pos h7] at h; injection h with h; subst h; simp
  rw [if_neg h7] at h
  rcases eq_or_ne f "ema_12" with h8 | h8
  · rw [if_pos h8] at h; injection h with h; subst h; simp
  rw [if_neg h8] at h
  rcases eq_or_ne f "ema_26" with h9 | h9
  · rw [if_pos h9] at h; injection h with h; subst h; simp
  rw [if_neg h9] at h
  rcases eq_or_ne f "rsi" with h10 | h10
  · rw [if_pos h10] at h; injection h with h; subst h; simp
  rw [if_neg h10] at h
  rcases eq_or_ne f "macd" with h11 | h11
  · rw [if_pos h11] at h; injection h with h; subst h; simp
  rw [if_neg h11] at h
  rcases eq_or_ne f "macd_signal" with h12 | h12
  · rw [if_pos h12] at h; injection h with h; subst h; simp
  rw [if_neg h12] at h
  rcases eq_or_ne f "macd_diff" with h13 | h13
  · rw [if_pos h13] at h; injection h with h; subst h; simp
  rw [if_neg h13] at h
  rcases eq_or_ne f "bollinger_upper" with h14 | h14
  · rw [if_pos h14] at h; injection h with h; subst h; simp
  rw [if_neg h14] at h
  rcases eq_or_ne f "bollinger_lower" with h15 | h15
  · rw [if_pos h15] at h; injection h with h; subst h; simp
  rw [if_neg h15] at h
  rcases eq_or_ne f "bollinger_middle" with h16 | h16
  · rw [if_pos h16] at h; injection h with h; subst h; simp
  rw [if_neg h16] at h
  rcases eq_or_ne f "atr" with h17 | h17
  · rw [if_pos h17] at h; injection h with h; subst h; simp
  rw [if_neg h17] at h
  rcases eq_or_ne f "stoch" with h18 | h18
  · rw [if_pos h18] at h; injection h with h; subst h; simp
  rw [if_neg h18] at h
  rcases eq_or_ne f "williams_r" with h19 | h19
  · rw [if_pos h19] at h; injection h with h; subst h; simp
  rw [if_neg h19] at h
  rcases eq_or_ne f "price_change" with h20 | h20
  · rw [if_pos h20] at h; injection h with h; subst h; simp
  rw [if_neg h20] at h
  rcases eq_or_ne f "log_return" with h21 | h21
  · rw [if_pos h21] at h; injection h with h; subst h; simp
  rw [if_neg h21] at h
  rcases eq_or_ne f "volatility" with h22 | h22
  · rw [if_pos h22] at h; injection h with h; subst h; simp
  rw [if_neg h22] at h
  rcases eq_or_ne f "volume_sma" with h23 | h23
  · rw [if_pos h23] at h; injection h with h; subst h; simp
  rw [if_neg h23] at h
  rcases eq_or_ne f "volume_change" with h24 | h24
  · rw [if_pos h24] at h; injection h with h; subst h; simp
  rw [if_neg h24] at h
  rcases eq_or_ne f "pe_ratio" with h25 | h25
  · rw [if_pos h25] at h; injection h with h; subst h; simp
  rw [if_neg h25] at h
  rcases eq_or_ne f "market_cap" with h26 | h26
  · rw [if_pos h26] at h; injection h with h; subst h; simp
  rw [if_neg h26] at h
  rcases eq_or_ne f "book_value" with h27 | h27
  · rw [if_pos h27] at h; injection h with h; subst h; simp
  rw [if_neg h27] at h
  rcases eq_or_ne f "gdp" with h28 | h28
  · rw [if_pos h28] at h; injection h with h; subst h; simp
  rw [if_neg h28] at h
  rcases eq_or_ne f "cpi" with h29 | h29
  · rw [if_pos h29] at h; injection h with h; subst h; simp
  rw [if_neg h29] at h
  rcases eq_or_ne f "interest_rates" with h30 | h30
  · rw [if_pos h30] at h; injection h with h; subst h; simp
  rw [if_neg h30] at h
  exact Option.noConfusion h

/-- Members of an upserted association list are the new pair or old ones. -/
theorem mem_upsert (k : String) (v : FeatInfo) :
    ∀ (d : List (String × FeatInfo)) (q : String × FeatInfo),
      q ∈ upsert d k v → q = (k, v) ∨ q ∈ d := by
  intro d
  induction d with
  | nil =>
    intro q hq
    simp [upsert] at hq
    exact Or.inl hq
  | cons a rest ih =>
    intro q hq
    rcases a with ⟨k', v'⟩
    by_cases hk : k' = k
    · subst hk
      simp only [upsert, if_pos rfl] at hq
      rcases List.mem_cons.mp hq with rfl | hq'
      · exact Or.inl rfl
      · exact Or.inr (List.mem_cons_of_mem _ hq')
    · simp only [upsert, if_neg hk] at hq
      rcases List.mem_cons.mp hq with rfl | hq'
      · exact Or.inr (List.mem_cons_self _ _)
      · rcases ih q hq' with h | h
        · exact Or.inl h
        · exact Or.inr (List.mem_cons_of_mem _ h)

/-- Every value column stored by the feature-generation loop has the
DataFrame's length. -/
theorem buildFeatures_values_length (df : List Row) :
    ∀ (fs : List String) (acc : List (String × FeatInfo)),
      (∀ p ∈ acc, p.2.values.length = df.length) →
      ∀ p ∈ buildFeatures df fs acc, p.2.values.length = df.length := by
  intro fs
  induction fs with
  | nil => intro acc hacc p hp; exact hacc p hp
  | cons a as ih =>
    intro acc hacc p hp
    cases hcol : featureColumn df a with
    | some col =>
      simp only [buildFeatures, hcol] at hp
      refine ih _ ?_ p hp
      intro q hq
      rcases mem_upsert a ⟨a, col, featureDescription a⟩ acc q hq with rfl | hq'
      · exact featureColumn_length df a col hcol
      · exact hacc q hq'
    | none =>
      simp only [buildFeatures, hcol] at hp
      exact ih _ hacc p hp

/-- Entry `(i, j)` of the source's correlation matrix over all-non-empty
columns is the Pearson value of columns `i` and `j` (out-of-range indices
read the substituted 0). -/
theorem matrixEntry_calc (cols : List (List (Option ℝ)))
    (hcols : ∀ c ∈ cols, c ≠ []) (i j : ℕ) :
    matrixEntry (calculateCorrelationMatrix cols) i j =
      pearson (cols.getD i []) (cols.getD j []) := by
  have hfilter : cols.filter (fun c => !c.isEmpty) = cols :=
    List.filter_eq_self.mpr (fun c hc => by
      simpa [List.isEmpty_iff] using hcols c hc)
  simp only [matrixEntry, calculateCorrelationMatrix]
  rw [hfilter]
  simp only [List.getD_eq_getElem?_getD, List.getElem?_map]
  rcases Nat.lt_or_ge i cols.length with hi | hi
  · rcases Nat.lt_or_ge j cols.length with hj | hj
    · simp [List.getElem?_eq_getElem hi, List.getElem?_eq_getElem hj]
    · have hj' : cols[j]? = none := List.getElem?_eq_none hj
      simp [List.getElem?_eq_getElem hi, hj', pearson_nil_right]
  · have hi' : cols[i]? = none := List.getElem?_eq_none hi
    simp [hi', pearson_nil_left]

/-- On a non-empty series, `generate_features` succeeds with the response
record built from the sorted DataFrame. -/
theorem generateFeatures_ok (ticker preset : String) (sel : List String)
    (rows : List Row) (u : ℕ → ℚ) (t : ℕ) (hne : rows.isEmpty = false) :
    generateFeatures ticker preset sel rows u t =
      .ok { features := buildFeatures (sortRows rows)
              (if preset = "custom" then sel
                else ((featurePresets.lookup preset).getD [])) []
            featureImportance := calculateFeatureImportance u
              ((buildFeatures (sortRows rows)
                (if preset = "custom" then sel
                  else ((featurePresets.lookup preset).getD [])) []).map
                Prod.fst)
            correlationMatrix := calculateCorrelationMatrix
              ((buildFeatures (sortRows rows)
                (if preset = "custom" then sel
                  else ((featurePresets.lookup preset).getD [])) []).map
                (fun p => p.2.values))
            selectedFeatures := (if preset = "custom" then sel
              else ((featurePresets.lookup preset).getD []))
            ticker := ticker
            generatedAt := t } := by
  unfold generateFeatures
  rw [hne]
  simp only [Bool.false_eq_true, if_false]

/-- The same equation for the projected successful result. -/
theorem generateFeaturesOut_ok (ticker preset : String) (sel : List String)
    (rows : List Row) (u : ℕ → ℚ) (t : ℕ) (hne : rows.isEmpty = false) :
    generateFeaturesOut ticker preset sel rows u t =
      { features := buildFeatures (sortRows rows)
          (if preset = "custom" then sel
            else ((featurePresets.lookup preset).getD [])) []
        featureImportance := calculateFeatureImportance u
          ((buildFeatures (sortRows rows)
            (if preset = "custom" then sel
              else ((featurePresets.lookup preset).getD [])) []).map
            Prod.fst)
        correlationMatrix := calculateCorrelationMatrix
          ((buildFeatures (sortRows rows)
            (if preset = "custom" then sel
              else ((featurePresets.lookup preset).getD [])) []).map
            (fun p => p.2.values))
        selectedFeatures := (if preset = "custom" then sel
          else ((featurePresets.lookup preset).getD []))
        ticker := ticker
        generatedAt := t } := by
  unfold generateFeaturesOut
  rw [generateFeatures_ok ticker preset sel rows u t hne]

/-- On an empty series both calls raise the same `ValueError`. -/
theorem generateFeatures_empty (ticker preset : String) (sel : List String)
    (rows : List Row) (u : ℕ → ℚ) (t : ℕ) (hne : rows.isEmpty = true) :
    generateFeatures ticker preset sel rows u t =
      .error "Stock data is required for feature generation" := by
  unfold generateFeatures
  rw [hne]
  simp only [if_true]

/-- The unsorted importance entries do not depend on the draw stream or its
counter when every key is in the static lookup table. -/
theorem mkImportance_indep (u1 u2 : ℕ → ℚ) :
    ∀ (keys : List String) (k1 k2 : ℕ),
      (∀ f ∈ keys, (staticImportance.lookup f).isSome = true) →
      mkImportance u1 keys k1 = mkImportance u2 keys k2 := by
  intro keys
  induction keys with
  | nil => intro k1 k2 _; rfl
  | cons f fs ih =>
    intro k1 k2 hall
    cases hlook : (staticImportance.lookup f : Option ℚ) with
    | some s =>
      simp [mkImportance, hlook,
        ih k1 k2 (fun g hg => hall g (List.mem_cons_of_mem _ hg))]
    | none =>
      have hsome := hall f (List.mem_cons_self _ _)
      rw [hlook] at hsome
      cases hsome

/-- Claim C7 as amended: two calls of `generate_features` on the same
Series and feature list agree on success, on the features dictionary, the
correlation matrix, the selected feature list and the ticker; the
feature-importance list is also identical whenever every generated feature
is in the static importance table.  The only parts allowed to differ are
the random importance fallback and the `generated_at` wall-clock stamp. -/
theorem c7_determinism (ticker preset : String) (sel : List String)
    (rows : List Row) (u1 u2 : ℕ → ℚ) (t1 t2 : ℕ) :
    ((generateFeatures ticker preset sel rows u1 t1).isOk =
      (generateFeatures ticker preset sel rows u2 t2).isOk) ∧
    (generateFeaturesOut ticker preset sel rows u1 t1).features =
      (generateFeaturesOut ticker preset sel rows u2 t2).features ∧
    (generateFeaturesOut ticker preset sel rows u1 t1).correlationMatrix =
      (generateFeaturesOut ticker preset sel rows u2 t2).correlationMatrix ∧
    (generateFeaturesOut ticker preset sel rows u1 t1).selectedFeatures =
      (generateFeaturesOut ticker preset sel rows u2 t2).selectedFeatures ∧
    (generateFeaturesOut ticker preset sel rows u1 t1).ticker =
      (generateFeaturesOut ticker preset sel rows u2 t2).ticker ∧
    ((∀ f ∈ ((generateFeaturesOut ticker preset sel rows u1 t1).features.map
        Prod.fst), (staticImportance.lookup f).isSome = true) →
      (generateFeaturesOut ticker preset sel rows u1 t1).featureImportance =
        (generateFeaturesOut ticker preset sel rows u2 t2).featureImportance) := by
  cases hrows : rows.isEmpty with
  | true =>
    have he1 := generateFeatures_empty ticker preset sel rows u1 t1 hrows
    have he2 := generateFeatures_empty ticker preset sel rows u2 t2 hrows
    have ho1 : generateFeaturesOut ticker preset sel rows u1 t1 = default := by
      unfold generateFeaturesOut
      rw [he1]
    have ho2 : generateFeaturesOut ticker preset sel rows u2 t2 = default := by
      unfold generateFeaturesOut
      rw [he2]
    rw [he1, he2, ho1, ho2]
    exact ⟨rfl, rfl, rfl, rfl, rfl, fun _ => rfl⟩
  | false =>
    rw [generateFeatures_ok ticker preset sel rows u1 t1 hrows,
      generateFeatures_ok ticker preset sel rows u2 t2 hrows,
      generateFeaturesOut_ok ticker preset sel rows u1 t1 hrows,
      generateFeaturesOut_ok ticker preset sel rows u2 t2 hrows]
    refine ⟨rfl, rfl, rfl, rfl, rfl, ?_⟩
    intro hstat
    show calculateFeatureImportance u1 _ = calculateFeatureImportance u2 _
    unfold calculateFeatureImportance
    rw [mkImportance_indep u1 u2 _ 0 0 hstat]

/-- Witness for C7: two calls with different draw streams and timestamps
produce the same features dictionary. -/
theorem c7_determinism_witness :
    (generateFeaturesOut "T" "custom" ["close"] rowsOne
      (fun _ => 0) 0).features =
    (generateFeaturesOut "T" "custom" ["close"] rowsOne
      (fun _ => 1) 5).features :=
  (c7_determinism "T" "custom" ["close"] rowsOne
    (fun _ => 0) (fun _ => 1) 0 5).2.1

/-- Claim C7, counterexample: two calls that differ only in the wall clock
return different responses (the `generated_at` stamp differs) even though
their feature-importance lists — the only variation the claim permits —
are identical. -/
theorem c7_counterexample :
    generateFeatures "T" "custom" ["close"] rowsOne (fun _ => 0) 0 ≠
      generateFeatures "T" "custom" ["close"] rowsOne (fun _ => 0) 1 ∧
    (generateFeaturesOut "T" "custom" ["close"] rowsOne
      (fun _ => 0) 0).featureImportance =
    (generateFeaturesOut "T" "custom" ["close"] rowsOne
      (fun _ => 0) 1).featureImportance := by
  have hne : rowsOne.isEmpty = false := rfl
  constructor
  · intro hcontra
    have hstamp := congrArg stampOf hcontra
    rw [generateFeatures_ok "T" "custom" ["close"] rowsOne (fun _ => 0) 0 hne,
      generateFeatures_ok "T" "custom" ["close"] rowsOne (fun _ => 0) 1 hne]
      at hstamp
    simp [stampOf] at hstamp
  · rw [generateFeaturesOut_ok "T" "custom" ["close"] rowsOne
      (fun _ => 0) 0 hne,
      generateFeaturesOut_ok "T" "custom" ["close"] rowsOne
      (fun _ => 0) 1 hne]

/-- Claim C2 as amended: the correlation matrix of a `generate_features`
response with at least one feature column is square over the generated
columns, symmetric, has every entry in `[-1, 1]` with `NaN` replaced by 0,
and each diagonal entry equals 1 exactly when that column's paired
observations have nonzero variance — a zero-variance (e.g. constant)
column gets 0 on the diagonal from the `NaN -> 0` substitution, not 1. -/
theorem c2_corr_matrix (ticker preset : String) (sel : List String)
    (rows : List Row) (u : ℕ → ℚ) (t : ℕ) (h1 : rows ≠ [])
    (h2 : 0 < (generateFeaturesOut ticker preset sel rows u t).features.length) :
    CorrMatrixClaim (generateFeaturesOut ticker preset sel rows u t) := by
  have hne : rows.isEmpty = false := by
    cases rows
    · exact absurd rfl h1
    · rfl
  have hdfpos : 0 < (sortRows rows).length := by
    rw [sortRows, List.length_insertionSort]
    cases rows
    · exact absurd rfl h1
    · simp
  rw [generateFeaturesOut_ok ticker preset sel rows u t hne] at h2 ⊢
  unfold CorrMatrixClaim
  set feats := (if preset = "custom" then sel
    else ((featurePresets.lookup preset).getD [])) with hfeats
  set fd := buildFeatures (sortRows rows) feats [] with hfd
  set cols := fd.map (fun p => p.2.values) with hcolsdef
  have hlen : ∀ c ∈ cols, c.length = (sortRows rows).length := by
    intro c hc
    rcases List.mem_map.mp hc with ⟨p, hp, rfl⟩
    exact buildFeatures_values_length (sortRows rows) feats []
      (by intro q hq; simp at hq) p hp
  have hnonempty : ∀ c ∈ cols, c ≠ [] := by
    intro c hc hcontra
    have hl := hlen c hc
    rw [hcontra] at hl
    simp at hl
    omega
  have hfilter : cols.filter (fun c => !c.isEmpty) = cols :=
    List.filter_eq_self.mpr (fun c hc => by
      simpa [List.isEmpty_iff] using hnonempty c hc)
  refine ⟨?_, ?_, ?_, ?_, ?_⟩
  · show (calculateCorrelationMatrix cols).length = cols.length
    simp only [calculateCorrelationMatrix]
    rw [hfilter]
    simp
  · show ∀ row ∈ calculateCorrelationMatrix cols, row.length = cols.length
    intro row hrow
    simp only [calculateCorrelationMatrix] at hrow
    rw [hfilter] at hrow
    rcases List.mem_map.mp hrow with ⟨ci, -, rfl⟩
    simp
  · intro i j
    rw [matrixEntry_calc cols hnonempty, matrixEntry_calc cols hnonempty]
    exact pearson_comm _ _
  · intro i j
    rw [matrixEntry_calc cols hnonempty]
    exact abs_pearson_le_one _ _
  · intro i
    rw [matrixEntry_calc cols hnonempty]
    exact pearson_self _

/-- Witness for C2 at a concrete call with one non-constant column. -/
theorem c2_corr_matrix_witness :
    rowsPair ≠ [] ∧
    0 < (generateFeaturesOut "T" "custom" ["close"] rowsPair
      (fun _ => 0) 0).features.length ∧
    CorrMatrixClaim (generateFeaturesOut "T" "custom" ["close"] rowsPair
      (fun _ => 0) 0) := by
  have h1 : rowsPair ≠ [] := by simp [rowsPair]
  have h2 : 0 < (generateFeaturesOut "T" "custom" ["close"] rowsPair
      (fun _ => 0) 0).features.length := by
    rw [generateFeaturesOut_ok "T" "custom" ["close"] rowsPair
      (fun _ => 0) 0 rfl]
    norm_num [buildFeatures, featureColumn, upsert, reduceIte]
  exact ⟨h1, h2,
    c2_corr_matrix "T" "custom" ["close"] rowsPair (fun _ => 0) 0 h1 h2⟩

/-- Claim C2, counterexample: requesting only the constant mock column
`pe_ratio` yields a correlation matrix whose diagonal entry is the
substituted 0 (pandas' `NaN`), not the claimed 1.0. -/
theorem c2_counterexample :
    0 < (generateFeaturesOut "T" "custom" ["pe_ratio"] rowsPair
      (fun _ => 0) 0).features.length ∧
    matrixEntry (generateFeaturesOut "T" "custom" ["pe_ratio"] rowsPair
      (fun _ => 0) 0).correlationMatrix 0 0 = 0 ∧
    (0 : ℝ) ≠ 1 := by
  have hne : rowsPair.isEmpty = false := rfl
  have hn2 : (sortRows rowsPair).length = 2 := by
    rw [sortRows, List.length_insertionSort]
    rfl
  have hcol : featureColumn (sortRows rowsPair) "pe_ratio" =
      some (constCol 20.5 (sortRows rowsPair).length) := by
    simp [featureColumn]
  have hfd : buildFeatures (sortRows rowsPair) ["pe_ratio"] [] =
      [("pe_ratio", ⟨"pe_ratio", constCol 20.5 (sortRows rowsPair).length,
        featureDescription "pe_ratio"⟩)] := by
    simp only [buildFeatures, hcol, upsert]
  rw [generateFeaturesOut_ok "T" "custom" ["pe_ratio"] rowsPair
    (fun _ => 0) 0 hne]
  have hsel : (if ("custom" : String) = "custom" then (["pe_ratio"] : List String)
      else ((featurePresets.lookup "custom").getD [])) = ["pe_ratio"] := by
    norm_num
  rw [hsel, hfd]
  refine ⟨by norm_num, ?_, by norm_num⟩
  show matrixEntry (calculateCorrelationMatrix
    [constCol 20.5 (sortRows rowsPair).length]) 0 0 = 0
  rw [hn2]
  have hc2 : constCol (20.5 : ℝ) 2 = [some 20.5, some 20.5] := rfl
  rw [hc2]
  rw [matrixEntry_calc [[some 20.5, some 20.5]]
    (by intro c hc; simp at hc; subst hc; simp) 0 0]
  simp only [List.getD_cons_zero]
  rw [pearson_self]
  rw [if_pos ?_]
  rw [pairedObs_self]
  show devSq (List.map Prod.fst (List.map (fun a => (a, a))
    (List.filterMap id [some (20.5 : ℝ), some 20.5]))) = 0
  norm_num [devSq, mean, List.filterMap_cons, List.filterMap_nil,
    Function.comp]

/-- Witness for C9 at a two-model analysis with the zero stream. -/
theorem c9_seed_reuse_witness :
    ∃ out, runBacktest (fun _ => 0) "a1" [("a1", ["m1", "m2"])]
      "30 Days" "7 Days" "7 Days" ["mape"] 0 = .ok out ∧
      (∀ m ∈ ["m1", "m2"], out.results.lookup m =
        some { backtestModel (fun _ => 0) 0 "m1" (parsePeriod "30 Days")
          ["mape"] with modelName := m }) ∧
      ∃ st, out.overallStats = some st ∧ st.bestModel = "m1" :=
  c9_seed_reuse (fun _ => 0) 0 "a1" [("a1", ["m1", "m2"])]
    "30 Days" "7 Days" "7 Days" ["mape"] "m1" ["m2"] (by simp [List.lookup])

end StockLab
